import Mathlib

/-!
xk6-syslog: `Syslog.Connect`, `Connection.Send`, `Connection.Close`.

A shallow embedding of `syslog.go`.  The Go code is straight-line code over the
`net`, `crypto/tls`, `crypto/x509` and `time` packages.  Those library calls are
the parameters of the embedding (`Net`): every theorem quantifies over all of
their outcomes.  Each library call that the code performs is recorded, in
program order, in a trace of `Event`s, so that statements such as "the
handshake is never attempted" or "SetDeadline is called exactly once" are
statements about that trace.

A run of a Go function either returns or stops with a run-time panic
(`Outcome`).  `Connect` returns the Go pair `(*Connection, error)`, embedded as
`Option Connection × Option Error` (`none` is `nil`).
-/

namespace Syslog

/-! ## Data model -/

/-- Go `error` values seen by `Connect`: errors handed back by a library
primitive, and errors built in `syslog.go` with `fmt.Errorf`: `errorf` from a
format without verbs, `wrapf` from a format that wraps an error with `%w`. -/
inductive Error where
  | lib (msg : String)
  | errorf (msg : String)
  | wrapf (format : String) (wrapped : Error)
deriving DecidableEq, Repr

/-- A parsed `tls.Certificate` (the value `tls.X509KeyPair` returns). -/
abbrev Certificate := String

/-- An `x509.CertPool`: the certificates it holds. -/
abbrev CertPool := List String

/-- A resolved `*net.TCPAddr`. -/
abbrev TCPAddr := String

/-- A resolved `*net.UDPAddr`. -/
abbrev UDPAddr := String

/-- An operating-system socket, named by its descriptor. -/
abbrev Socket := Nat

/-- A `[]byte` payload. -/
abbrev Bytes := List Nat

/-- Go `type TLSConfig struct` (lines 24-30). -/
structure TLSConfig where
  CA : String
  ClientCert : String
  ClientKey : String
  ServerName : String
  InsecureSkipVerify : Bool
deriving DecidableEq, Repr

/-- Go `type Config struct` (lines 18-22).  `Timeout` is a Go `int`; `TLS` is a
pointer, `none` being the nil pointer. -/
structure Config where
  Transport : String
  Timeout : Int
  TLS : Option TLSConfig
deriving DecidableEq, Repr

/-- The fields of `crypto/tls.Config` that `Connect` sets.  `Certificates` is
the zero value `[]` and `RootCAs` the zero value `none` (platform trust roots)
unless assigned. -/
structure TlsClientConfig where
  InsecureSkipVerify : Bool
  ServerName : String
  Certificates : List Certificate
  RootCAs : Option CertPool
deriving DecidableEq, Repr

/-- The dynamic type behind the `net.Conn` interface value that `Connect`
stores: `*net.UDPConn`, `*net.TCPConn`, or the `*tls.Conn` that
`tls.Client(tcpConn, tlsCfg)` builds over a TCP socket. -/
inductive NetConn where
  | udpConn (fd : Socket)
  | tcpConn (fd : Socket)
  | tlsConn (fd : Socket) (cfg : TlsClientConfig)
deriving DecidableEq, Repr

/-- Go `type Connection struct` (lines 117-120). -/
structure Connection where
  conn : NetConn
  transport : String
deriving DecidableEq, Repr

/-- One call of a library primitive, with its arguments. -/
inductive Event where
  | resolveTCPAddr (address : String)
  | dialTCP (addr : TCPAddr)
  | resolveUDPAddr (address : String)
  | dialUDP (addr : UDPAddr)
  | x509KeyPair (certPEM keyPEM : String)
  | appendCertsFromPEM (pem : String)
  | handshake (fd : Socket) (cfg : TlsClientConfig)
  | setDeadline (conn : NetConn) (t : Int)
  | write (conn : NetConn) (data : Bytes)
  | close (conn : NetConn)
deriving DecidableEq, Repr

/-- The library primitives `syslog.go` calls, as functions of their arguments.
An `error` result of `nil` is `none`.  Instants (`time.Time`) are integers,
in nanoseconds. -/
structure Net where
  /-- Go `net.ResolveTCPAddr("tcp", address)`. -/
  ResolveTCPAddr : String → Except Error TCPAddr
  /-- Go `net.DialTCP("tcp", nil, addr)`. -/
  DialTCP : TCPAddr → Except Error Socket
  /-- Go `net.ResolveUDPAddr("udp", address)`. -/
  ResolveUDPAddr : String → Except Error UDPAddr
  /-- Go `net.DialUDP("udp", nil, addr)`. -/
  DialUDP : UDPAddr → Except Error Socket
  /-- Go `tls.X509KeyPair(certPEM, keyPEM)`. -/
  X509KeyPair : String → String → Except Error Certificate
  /-- The certificates `(*x509.CertPool).AppendCertsFromPEM` finds in the PEM
  text; the call reports `ok` exactly when it found one. -/
  ParseCertsFromPEM : String → List String
  /-- Go `(*tls.Conn).Handshake()` on `tls.Client(tcpConn, tlsCfg)`. -/
  Handshake : Socket → TlsClientConfig → Option Error
  /-- Go `time.Now()`. -/
  Now : Int
  /-- Go `conn.SetDeadline(t)`. -/
  SetDeadline : NetConn → Int → Option Error
  /-- Go `conn.Write(data)`: bytes written and error. -/
  Write : NetConn → Bytes → Nat × Option Error
  /-- Go `conn.Close()`. -/
  Close : NetConn → Option Error

/-- How a run of a Go function ends: it returns a value, or the run time
stops it with a panic. -/
inductive Outcome (α : Type) where
  | ret (a : α)
  | fault (msg : String)
deriving DecidableEq, Repr

/-- A run: the library calls made, in order, and how the run ended. -/
structure Run (α : Type) where
  trace : List Event
  out : Outcome α
deriving DecidableEq, Repr

/-! ## Machine arithmetic -/

/-- A Go `int64` (and `int` on 64-bit targets): the value in two's complement. -/
def wrapInt64 (x : Int) : Int := (x + 2 ^ 63) % 2 ^ 64 - 2 ^ 63

/-- The range of a Go `int64`. -/
def inInt64 (x : Int) : Prop := -(2 : Int) ^ 63 ≤ x ∧ x < 2 ^ 63

instance (x : Int) : Decidable (inInt64 x) := by unfold inInt64; infer_instance

/-- Go `time.Second`, a `time.Duration` (int64 nanoseconds). -/
def Second : Int := 1000000000

/-- Go `time.Duration(timeout) * time.Second`: an `int64` product. -/
def timeoutDuration (timeout : Int) : Int := wrapInt64 (wrapInt64 timeout * Second)

/-- Go `time.Now().Add(time.Duration(timeout) * time.Second)`.  Instants are
unbounded integers here: `Time.Add` is exact as long as the sum stays within the
range of `time.Time`, which holds for every wall-clock reading and every
`int64` duration (about 292 years). -/
def deadlineAt (w : Net) (timeout : Int) : Int := w.Now + timeoutDuration timeout

/-! ## `Connect` -/

/-- Lines 68-74: the client certificate block.  Returns the calls made and
either the early-return error or the updated `tlsCfg`. -/
def loadClientCert (w : Net) (t : TLSConfig) (tlsCfg : TlsClientConfig) :
    List Event × Except Error TlsClientConfig :=
  if t.ClientCert ≠ "" ∧ t.ClientKey ≠ "" then
    match w.X509KeyPair t.ClientCert t.ClientKey with
    | .error err =>
      ([.x509KeyPair t.ClientCert t.ClientKey],
        .error (.wrapf "failed to load client cert/key: %w" err))
    | .ok cert =>
      ([.x509KeyPair t.ClientCert t.ClientKey], .ok { tlsCfg with Certificates := [cert] })
  else ([], .ok tlsCfg)

/-- Lines 76-82: the CA block. -/
def loadCA (w : Net) (t : TLSConfig) (tlsCfg : TlsClientConfig) :
    List Event × Except Error TlsClientConfig :=
  if t.CA ≠ "" then
    let pool : CertPool := [] ++ w.ParseCertsFromPEM t.CA
    let ok : Bool := !(w.ParseCertsFromPEM t.CA).isEmpty
    if !ok then
      ([.appendCertsFromPEM t.CA], .error (.errorf "failed to parse CA certificate"))
    else ([.appendCertsFromPEM t.CA], .ok { tlsCfg with RootCAs := some pool })
  else ([], .ok tlsCfg)

/-- Lines 62-90: the part of the `"tls"` case after the TCP dial, for a
non-nil `config.TLS`. -/
def tlsClient (w : Net) (tcpConn : Socket) (t : TLSConfig) : Run (Except Error NetConn) :=
  let tlsCfg : TlsClientConfig :=
    { InsecureSkipVerify := t.InsecureSkipVerify, ServerName := t.ServerName,
      Certificates := [], RootCAs := none }
  match loadClientCert w t tlsCfg with
  | (tr1, .error err) => ⟨tr1, .ret (.error err)⟩
  | (tr1, .ok tlsCfg1) =>
    match loadCA w t tlsCfg1 with
    | (tr2, .error err) => ⟨tr1 ++ tr2, .ret (.error err)⟩
    | (tr2, .ok tlsCfg2) =>
      match w.Handshake tcpConn tlsCfg2 with
      | some err => ⟨tr1 ++ tr2 ++ [.handshake tcpConn tlsCfg2], .ret (.error err)⟩
      | none =>
        ⟨tr1 ++ tr2 ++ [.handshake tcpConn tlsCfg2], .ret (.ok (.tlsConn tcpConn tlsCfg2))⟩

/-- Lines 40-101: the `switch config.Transport`.  `.ret (.error err)` is an
early `return nil, err`; `.ret (.ok conn)` leaves the switch with `conn` set.
With `config.TLS == nil` the field read at line 64 is a nil pointer
dereference. -/
def dialTransport (w : Net) (address : String) (config : Config) :
    Run (Except Error NetConn) :=
  if config.Transport = "tcp" then
    match w.ResolveTCPAddr address with
    | .error err => ⟨[.resolveTCPAddr address], .ret (.error err)⟩
    | .ok addr =>
      match w.DialTCP addr with
      | .error err => ⟨[.resolveTCPAddr address, .dialTCP addr], .ret (.error err)⟩
      | .ok fd => ⟨[.resolveTCPAddr address, .dialTCP addr], .ret (.ok (.tcpConn fd))⟩
  else if config.Transport = "tls" then
    match w.ResolveTCPAddr address with
    | .error err => ⟨[.resolveTCPAddr address], .ret (.error err)⟩
    | .ok addr =>
      match w.DialTCP addr with
      | .error err => ⟨[.resolveTCPAddr address, .dialTCP addr], .ret (.error err)⟩
      | .ok tcpConn =>
        match config.TLS with
        | none =>
          ⟨[.resolveTCPAddr address, .dialTCP addr],
            .fault "invalid memory address or nil pointer dereference"⟩
        | some t =>
          let r := tlsClient w tcpConn t
          ⟨[.resolveTCPAddr address, .dialTCP addr] ++ r.trace, r.out⟩
  else
    match w.ResolveUDPAddr address with
    | .error err => ⟨[.resolveUDPAddr address], .ret (.error err)⟩
    | .ok addr =>
      match w.DialUDP addr with
      | .error err => ⟨[.resolveUDPAddr address, .dialUDP addr], .ret (.error err)⟩
      | .ok fd => ⟨[.resolveUDPAddr address, .dialUDP addr], .ret (.ok (.udpConn fd))⟩

/-- Lines 103-113: the deadline block and the final `return`, run on the
`conn` the switch produced. -/
def finish (w : Net) (config : Config) (conn : NetConn) :
    Run (Option Connection × Option Error) :=
  if config.Timeout > 0 then
    match w.SetDeadline conn (deadlineAt w config.Timeout) with
    | some err => ⟨[.setDeadline conn (deadlineAt w config.Timeout)], .ret (none, some err)⟩
    | none =>
      ⟨[.setDeadline conn (deadlineAt w config.Timeout)],
        .ret (some { conn := conn, transport := config.Transport }, none)⟩
  else ⟨[], .ret (some { conn := conn, transport := config.Transport }, none)⟩

/-- Go `func (s *Syslog) Connect(address string, config Config) (*Connection, error)`
(lines 36-114). -/
def Connect (w : Net) (address : String) (config : Config) :
    Run (Option Connection × Option Error) :=
  match dialTransport w address config with
  | ⟨tr, .fault msg⟩ => ⟨tr, .fault msg⟩
  | ⟨tr, .ret (.error err)⟩ => ⟨tr, .ret (none, some err)⟩
  | ⟨tr, .ret (.ok conn)⟩ =>
    let r := finish w config conn
    ⟨tr ++ r.trace, r.out⟩

/-! ## `Send` and `Close` -/

/-- Go `func (c *Connection) Send(data []byte) error` (lines 123-126). -/
def Connection.Send (w : Net) (c : Connection) (data : Bytes) : Run (Option Error) :=
  ⟨[.write c.conn data], .ret (w.Write c.conn data).2⟩

/-- Go `func (c *Connection) Close() error` (lines 129-131). -/
def Connection.Close (w : Net) (c : Connection) : Run (Option Error) :=
  ⟨[.close c.conn], .ret (w.Close c.conn)⟩

/-! ## Observers used in the statements -/

/-- The transport kind of an established connection, read off its dynamic type. -/
def NetConn.kind : NetConn → String
  | .udpConn _ => "udp"
  | .tcpConn _ => "tcp"
  | .tlsConn _ _ => "tls"

/-- Whether an event is a `SetDeadline` call. -/
def Event.isSetDeadline : Event → Bool
  | .setDeadline _ _ => true
  | _ => false

/-- Whether an event is a TLS handshake. -/
def Event.isHandshake : Event → Bool
  | .handshake _ _ => true
  | _ => false

/-- Whether an event is a `Close` call. -/
def Event.isClose : Event → Bool
  | .close _ => true
  | _ => false

/-- The socket under a connection. -/
def NetConn.fd : NetConn → Socket
  | .udpConn fd => fd
  | .tcpConn fd => fd
  | .tlsConn fd _ => fd

/-- The sockets that are open after a sequence of library calls made, in order,
from a state in which the sockets `opened` are open: a successful dial opens the
socket it returns, a `Close` releases the socket of the connection it is called
on, every other call leaves the open sockets as they are. -/
def openSocketsFrom (w : Net) : List Socket → List Event → List Socket
  | opened, [] => opened
  | opened, .dialTCP addr :: rest =>
    match w.DialTCP addr with
    | .ok fd => openSocketsFrom w (opened ++ [fd]) rest
    | .error _ => openSocketsFrom w opened rest
  | opened, .dialUDP addr :: rest =>
    match w.DialUDP addr with
    | .ok fd => openSocketsFrom w (opened ++ [fd]) rest
    | .error _ => openSocketsFrom w opened rest
  | opened, .close conn :: rest =>
    openSocketsFrom w (opened.filter (fun fd => fd != conn.fd)) rest
  | opened, .resolveTCPAddr _ :: rest => openSocketsFrom w opened rest
  | opened, .resolveUDPAddr _ :: rest => openSocketsFrom w opened rest
  | opened, .x509KeyPair _ _ :: rest => openSocketsFrom w opened rest
  | opened, .appendCertsFromPEM _ :: rest => openSocketsFrom w opened rest
  | opened, .handshake _ _ :: rest => openSocketsFrom w opened rest
  | opened, .setDeadline _ _ :: rest => openSocketsFrom w opened rest
  | opened, .write _ _ :: rest => openSocketsFrom w opened rest

/-- The sockets that are open after a sequence of library calls made from a
state with no open socket. -/
def openSockets (w : Net) (tr : List Event) : List Socket := openSocketsFrom w [] tr

/-- The rule of `io.Writer` that the `Write` of a `net.Conn` keeps: the count it
reports is at most `len(data)`, and a count below `len(data)` comes with a
non-nil error. -/
def writerContract (w : Net) : Prop :=
  ∀ conn data, (w.Write conn data).1 ≤ data.length ∧
    ((w.Write conn data).1 < data.length → (w.Write conn data).2 ≠ none)

/-- Whether a library call failed, in the environment `w`: it returned a
non-nil error, or, for `AppendCertsFromPEM`, it reported `ok = false`. -/
def Event.fails (w : Net) : Event → Bool
  | .resolveTCPAddr address =>
    match w.ResolveTCPAddr address with
    | .ok _ => false
    | .error _ => true
  | .dialTCP addr =>
    match w.DialTCP addr with
    | .ok _ => false
    | .error _ => true
  | .resolveUDPAddr address =>
    match w.ResolveUDPAddr address with
    | .ok _ => false
    | .error _ => true
  | .dialUDP addr =>
    match w.DialUDP addr with
    | .ok _ => false
    | .error _ => true
  | .x509KeyPair certPEM keyPEM =>
    match w.X509KeyPair certPEM keyPEM with
    | .ok _ => false
    | .error _ => true
  | .appendCertsFromPEM pem => (w.ParseCertsFromPEM pem).isEmpty
  | .handshake fd cfg => (w.Handshake fd cfg).isSome
  | .setDeadline conn t => (w.SetDeadline conn t).isSome
  | .write conn data => (w.Write conn data).2.isSome
  | .close conn => (w.Close conn).isSome

/-- The `X509KeyPair` call the client certificate block makes, if any. -/
def certCalls (t : TLSConfig) : List Event :=
  if t.ClientCert ≠ "" ∧ t.ClientKey ≠ "" then [.x509KeyPair t.ClientCert t.ClientKey] else []

/-- The `AppendCertsFromPEM` call the CA block makes, if any. -/
def caCalls (t : TLSConfig) : List Event :=
  if t.CA ≠ "" then [.appendCertsFromPEM t.CA] else []

/-- The client certificate stage succeeds: when both PEM texts are given, they
load as a key pair. -/
def certLoads (w : Net) (t : TLSConfig) : Prop :=
  t.ClientCert ≠ "" ∧ t.ClientKey ≠ "" → ∃ cert, w.X509KeyPair t.ClientCert t.ClientKey = .ok cert

/-- The CA stage succeeds: when a CA text is given, a certificate is parsed from it. -/
def caParses (w : Net) (t : TLSConfig) : Prop :=
  t.CA ≠ "" → w.ParseCertsFromPEM t.CA ≠ []

/-- The TLS client configuration as the specification describes it, field by
field: the verification switch and server name are the user's, the trust roots
are the pool parsed from `CA` when `CA` is non-empty and unset otherwise, and a
client certificate is registered when `ClientCert` and `ClientKey` are both
non-empty. -/
def referenceTlsConfig (w : Net) (t : TLSConfig) : TlsClientConfig where
  InsecureSkipVerify := t.InsecureSkipVerify
  ServerName := t.ServerName
  Certificates :=
    if t.ClientCert = "" then []
    else if t.ClientKey = "" then []
    else match w.X509KeyPair t.ClientCert t.ClientKey with
      | .ok cert => [cert]
      | .error _ => []
  RootCAs := if t.CA = "" then none else some (w.ParseCertsFromPEM t.CA)

/-! ## Concrete environments -/

/-- An environment in which every primitive succeeds: addresses resolve to
themselves, every dial returns socket `3`, the clock reads `1000`. -/
def okNet : Net where
  ResolveTCPAddr := fun a => .ok a
  DialTCP := fun _ => .ok 3
  ResolveUDPAddr := fun a => .ok a
  DialUDP := fun _ => .ok 3
  X509KeyPair := fun c k => .ok (c ++ k)
  ParseCertsFromPEM := fun pem => [pem]
  Handshake := fun _ _ => none
  Now := 1000
  SetDeadline := fun _ _ => none
  Write := fun _ data => (data.length, none)
  Close := fun _ => none


/-- An environment in which the key pair loader finds no PEM block in any
certificate text. -/
def keyPairFailNet : Net :=
  { okNet with
    X509KeyPair := fun _ _ =>
      .error (.lib "tls: failed to find any PEM data in certificate input") }

/-- An environment in which every TLS handshake fails on the server's
certificate. -/
def handshakeFailNet : Net :=
  { okNet with
    Handshake := fun _ _ =>
      some (.lib "tls: failed to verify certificate: x509: certificate signed by unknown authority") }

/-- An environment in which every `Write` fails having written nothing. -/
def writeFailNet : Net :=
  { okNet with Write := fun _ _ => (0, some (.lib "write: broken pipe")) }

/-! ## Structure of a `Connect` run -/

/-- A `Connect` run whose switch stops with a panic stops with that panic. -/
theorem Connect_of_fault {w : Net} {address : String} {config : Config} {tr : List Event}
    {msg : String} (hd : dialTransport w address config = ⟨tr, .fault msg⟩) :
    Connect w address config = ⟨tr, .fault msg⟩ := by
  simp [Connect, hd]

/-- A `Connect` run whose switch returns early returns that error and no handle. -/
theorem Connect_of_error {w : Net} {address : String} {config : Config} {tr : List Event}
    {err : Error} (hd : dialTransport w address config = ⟨tr, .ret (.error err)⟩) :
    Connect w address config = ⟨tr, .ret (none, some err)⟩ := by
  simp [Connect, hd]

/-- A `Connect` run whose switch leaves `conn` set goes on with the deadline block. -/
theorem Connect_of_conn {w : Net} {address : String} {config : Config} {tr : List Event}
    {conn : NetConn} (hd : dialTransport w address config = ⟨tr, .ret (.ok conn)⟩) :
    Connect w address config =
      ⟨tr ++ (finish w config conn).trace, (finish w config conn).out⟩ := by
  simp [Connect, hd]

/-- The three ways the switch can end. -/
theorem dialTransport_cases (w : Net) (address : String) (config : Config) :
    (∃ tr msg, dialTransport w address config = ⟨tr, .fault msg⟩) ∨
    (∃ tr err, dialTransport w address config = ⟨tr, .ret (.error err)⟩) ∨
    (∃ tr conn, dialTransport w address config = ⟨tr, .ret (.ok conn)⟩) := by
  rcases h : dialTransport w address config with ⟨tr, out⟩
  rcases out with (r | msg)
  · rcases r with (err | conn)
    · exact Or.inr (Or.inl ⟨tr, err, rfl⟩)
    · exact Or.inr (Or.inr ⟨tr, conn, rfl⟩)
  · exact Or.inl ⟨tr, msg, rfl⟩

/-- The deadline block returns a handle or an error, never both, never neither;
a handle it returns wraps `conn` and carries `config.Transport`. -/
theorem finish_out (w : Net) (config : Config) (conn : NetConn) :
    (finish w config conn).out = .ret (some ⟨conn, config.Transport⟩, none) ∨
    ∃ err, (finish w config conn).out = .ret (none, some err) := by
  unfold finish
  split
  · split
    · rename_i err _; exact Or.inr ⟨err, rfl⟩
    · exact Or.inl rfl
  · exact Or.inl rfl

/-- The four ways the TLS part of the `"tls"` case can end, with the calls made
in each. -/
theorem tlsClient_cases (w : Net) (fd : Socket) (t : TLSConfig) :
    (∃ err, (t.ClientCert ≠ "" ∧ t.ClientKey ≠ "") ∧
      w.X509KeyPair t.ClientCert t.ClientKey = .error err ∧
      tlsClient w fd t = ⟨[.x509KeyPair t.ClientCert t.ClientKey],
        .ret (.error (.wrapf "failed to load client cert/key: %w" err))⟩) ∨
    (certLoads w t ∧ t.CA ≠ "" ∧ w.ParseCertsFromPEM t.CA = [] ∧
      tlsClient w fd t = ⟨certCalls t ++ [.appendCertsFromPEM t.CA],
        .ret (.error (.errorf "failed to parse CA certificate"))⟩) ∨
    (∃ err, certLoads w t ∧ caParses w t ∧
      w.Handshake fd (referenceTlsConfig w t) = some err ∧
      tlsClient w fd t = ⟨certCalls t ++ caCalls t ++ [.handshake fd (referenceTlsConfig w t)],
        .ret (.error err)⟩) ∨
    (certLoads w t ∧ caParses w t ∧
      w.Handshake fd (referenceTlsConfig w t) = none ∧
      tlsClient w fd t = ⟨certCalls t ++ caCalls t ++ [.handshake fd (referenceTlsConfig w t)],
        .ret (.ok (.tlsConn fd (referenceTlsConfig w t)))⟩) := by
  by_cases hc : t.ClientCert ≠ "" ∧ t.ClientKey ≠ ""
  · rcases hk : w.X509KeyPair t.ClientCert t.ClientKey with err | cert
    · left
      exact ⟨err, hc, rfl, by simp [tlsClient, loadClientCert, hc, hk]⟩
    · right
      have hcl : certLoads w t := fun _ => ⟨cert, hk⟩
      have hcc : certCalls t = [.x509KeyPair t.ClientCert t.ClientKey] := by simp [certCalls, hc]
      by_cases hca : t.CA = ""
      · have hcp : caParses w t := fun h => absurd hca h
        have href : referenceTlsConfig w t =
            ⟨t.InsecureSkipVerify, t.ServerName, [cert], none⟩ := by
          simp [referenceTlsConfig, hc.1, hc.2, hk, hca]
        right
        rcases hh : w.Handshake fd (referenceTlsConfig w t) with _ | err
        · right
          refine ⟨hcl, hcp, rfl, ?_⟩
          rw [href] at hh
          simp [tlsClient, loadClientCert, loadCA, hc, hk, hca, hcc, caCalls, href, hh]
        · left
          refine ⟨err, hcl, hcp, rfl, ?_⟩
          rw [href] at hh
          simp [tlsClient, loadClientCert, loadCA, hc, hk, hca, hcc, caCalls, href, hh]
      · by_cases hp : w.ParseCertsFromPEM t.CA = []
        · left
          exact ⟨hcl, hca, hp, by simp [tlsClient, loadClientCert, loadCA, hc, hk, hca, hcc, hp]⟩
        · have hcp : caParses w t := fun _ => hp
          have href : referenceTlsConfig w t =
              ⟨t.InsecureSkipVerify, t.ServerName, [cert], some (w.ParseCertsFromPEM t.CA)⟩ := by
            simp [referenceTlsConfig, hc.1, hc.2, hk, hca]
          right
          rcases hh : w.Handshake fd (referenceTlsConfig w t) with _ | err
          · right
            refine ⟨hcl, hcp, rfl, ?_⟩
            rw [href] at hh
            simp [tlsClient, loadClientCert, loadCA, hc, hk, hca, hcc, caCalls, href, hh, hp]
          · left
            refine ⟨err, hcl, hcp, rfl, ?_⟩
            rw [href] at hh
            simp [tlsClient, loadClientCert, loadCA, hc, hk, hca, hcc, caCalls, href, hh, hp]
  · right
    have hcl : certLoads w t := fun h => absurd h hc
    have hcc : certCalls t = [] := by simp [certCalls, hc]
    have hcert : (referenceTlsConfig w t).Certificates = [] := by
      simp only [referenceTlsConfig]
      by_cases h1 : t.ClientCert = ""
      · simp [h1]
      · have h2 : t.ClientKey = "" := by
          by_contra h2
          exact hc ⟨h1, h2⟩
        simp [h1, h2]
    by_cases hca : t.CA = ""
    · have hcp : caParses w t := fun h => absurd hca h
      have href : referenceTlsConfig w t =
          ⟨t.InsecureSkipVerify, t.ServerName, [], none⟩ := by
        have : referenceTlsConfig w t = ⟨t.InsecureSkipVerify, t.ServerName,
            (referenceTlsConfig w t).Certificates, none⟩ := by
          simp [referenceTlsConfig, hca]
        rw [this, hcert]
      right
      rcases hh : w.Handshake fd (referenceTlsConfig w t) with _ | err
      · right
        refine ⟨hcl, hcp, rfl, ?_⟩
        rw [href] at hh
        simp [tlsClient, loadClientCert, loadCA, hc, hca, hcc, caCalls, href, hh]
      · left
        refine ⟨err, hcl, hcp, rfl, ?_⟩
        rw [href] at hh
        simp [tlsClient, loadClientCert, loadCA, hc, hca, hcc, caCalls, href, hh]
    · by_cases hp : w.ParseCertsFromPEM t.CA = []
      · left
        exact ⟨hcl, hca, hp, by simp [tlsClient, loadClientCert, loadCA, hc, hca, hcc, hp]⟩
      · have hcp : caParses w t := fun _ => hp
        have href : referenceTlsConfig w t =
            ⟨t.InsecureSkipVerify, t.ServerName, [], some (w.ParseCertsFromPEM t.CA)⟩ := by
          have : referenceTlsConfig w t = ⟨t.InsecureSkipVerify, t.ServerName,
              (referenceTlsConfig w t).Certificates, some (w.ParseCertsFromPEM t.CA)⟩ := by
            simp [referenceTlsConfig, hca]
          rw [this, hcert]
        right
        rcases hh : w.Handshake fd (referenceTlsConfig w t) with _ | err
        · right
          refine ⟨hcl, hcp, rfl, ?_⟩
          rw [href] at hh
          simp [tlsClient, loadClientCert, loadCA, hc, hca, hcc, caCalls, href, hh, hp]
        · left
          refine ⟨err, hcl, hcp, rfl, ?_⟩
          rw [href] at hh
          simp [tlsClient, loadClientCert, loadCA, hc, hca, hcc, caCalls, href, hh, hp]


/-- The `"tcp"` case of the switch. -/
theorem dialTransport_tcp (w : Net) (address : String) (config : Config)
    (ht : config.Transport = "tcp") :
    (∃ err, w.ResolveTCPAddr address = .error err ∧
      dialTransport w address config = ⟨[.resolveTCPAddr address], .ret (.error err)⟩) ∨
    (∃ addr err, w.ResolveTCPAddr address = .ok addr ∧ w.DialTCP addr = .error err ∧
      dialTransport w address config =
        ⟨[.resolveTCPAddr address, .dialTCP addr], .ret (.error err)⟩) ∨
    (∃ addr fd, w.ResolveTCPAddr address = .ok addr ∧ w.DialTCP addr = .ok fd ∧
      dialTransport w address config =
        ⟨[.resolveTCPAddr address, .dialTCP addr], .ret (.ok (.tcpConn fd))⟩) := by
  rcases hr : w.ResolveTCPAddr address with err | addr
  · exact Or.inl ⟨err, rfl, by simp [dialTransport, ht, hr]⟩
  · rcases hd : w.DialTCP addr with err | fd
    · exact Or.inr (Or.inl ⟨addr, err, rfl, hd, by simp [dialTransport, ht, hr, hd]⟩)
    · exact Or.inr (Or.inr ⟨addr, fd, rfl, hd, by simp [dialTransport, ht, hr, hd]⟩)

/-- The `default` case of the switch. -/
theorem dialTransport_default (w : Net) (address : String) (config : Config)
    (h1 : config.Transport ≠ "tcp") (h2 : config.Transport ≠ "tls") :
    (∃ err, w.ResolveUDPAddr address = .error err ∧
      dialTransport w address config = ⟨[.resolveUDPAddr address], .ret (.error err)⟩) ∨
    (∃ addr err, w.ResolveUDPAddr address = .ok addr ∧ w.DialUDP addr = .error err ∧
      dialTransport w address config =
        ⟨[.resolveUDPAddr address, .dialUDP addr], .ret (.error err)⟩) ∨
    (∃ addr fd, w.ResolveUDPAddr address = .ok addr ∧ w.DialUDP addr = .ok fd ∧
      dialTransport w address config =
        ⟨[.resolveUDPAddr address, .dialUDP addr], .ret (.ok (.udpConn fd))⟩) := by
  rcases hr : w.ResolveUDPAddr address with err | addr
  · exact Or.inl ⟨err, rfl, by simp [dialTransport, h1, h2, hr]⟩
  · rcases hd : w.DialUDP addr with err | fd
    · exact Or.inr (Or.inl ⟨addr, err, rfl, hd, by simp [dialTransport, h1, h2, hr, hd]⟩)
    · exact Or.inr (Or.inr ⟨addr, fd, rfl, hd, by simp [dialTransport, h1, h2, hr, hd]⟩)

/-- The `"tls"` case of the switch. -/
theorem dialTransport_tls (w : Net) (address : String) (config : Config)
    (ht : config.Transport = "tls") :
    (∃ err, w.ResolveTCPAddr address = .error err ∧
      dialTransport w address config = ⟨[.resolveTCPAddr address], .ret (.error err)⟩) ∨
    (∃ addr err, w.ResolveTCPAddr address = .ok addr ∧ w.DialTCP addr = .error err ∧
      dialTransport w address config =
        ⟨[.resolveTCPAddr address, .dialTCP addr], .ret (.error err)⟩) ∨
    (∃ addr fd, w.ResolveTCPAddr address = .ok addr ∧ w.DialTCP addr = .ok fd ∧
      config.TLS = none ∧
      dialTransport w address config =
        ⟨[.resolveTCPAddr address, .dialTCP addr],
          .fault "invalid memory address or nil pointer dereference"⟩) ∨
    (∃ addr fd t, w.ResolveTCPAddr address = .ok addr ∧ w.DialTCP addr = .ok fd ∧
      config.TLS = some t ∧
      dialTransport w address config =
        ⟨[.resolveTCPAddr address, .dialTCP addr] ++ (tlsClient w fd t).trace,
          (tlsClient w fd t).out⟩) := by
  have h1 : config.Transport ≠ "tcp" := by rw [ht]; decide
  rcases hr : w.ResolveTCPAddr address with err | addr
  · exact Or.inl ⟨err, rfl, by simp [dialTransport, ht, hr]⟩
  · rcases hd : w.DialTCP addr with err | fd
    · exact Or.inr (Or.inl ⟨addr, err, rfl, hd, by simp [dialTransport, ht, hr, hd]⟩)
    · rcases hT : config.TLS with _ | t
      · exact Or.inr (Or.inr (Or.inl ⟨addr, fd, rfl, hd, rfl,
          by simp [dialTransport, ht, hr, hd, hT]⟩))
      · exact Or.inr (Or.inr (Or.inr ⟨addr, fd, t, rfl, hd, rfl,
          by simp [dialTransport, ht, hr, hd, hT]⟩))

/-- The TLS part makes only key pair, CA and handshake calls. -/
theorem tlsClient_trace_calls (w : Net) (fd : Socket) (t : TLSConfig) :
    ∀ e ∈ (tlsClient w fd t).trace,
      e = .x509KeyPair t.ClientCert t.ClientKey ∨ e = .appendCertsFromPEM t.CA ∨
        e = .handshake fd (referenceTlsConfig w t) := by
  intro e he
  have hcc : ∀ x ∈ certCalls t, x = Event.x509KeyPair t.ClientCert t.ClientKey := by
    intro x hx
    unfold certCalls at hx
    split at hx <;> simp_all
  have hca : ∀ x ∈ caCalls t, x = Event.appendCertsFromPEM t.CA := by
    intro x hx
    unfold caCalls at hx
    split at hx <;> simp_all
  rcases tlsClient_cases w fd t with ⟨_, _, _, h⟩ | ⟨_, _, _, h⟩ | ⟨_, _, _, _, h⟩ | ⟨_, _, _, h⟩
  · rw [h] at he
    simp only [List.mem_singleton] at he
    exact Or.inl he
  · rw [h] at he
    simp only [List.mem_append, List.mem_singleton] at he
    rcases he with he | he
    · exact Or.inl (hcc e he)
    · exact Or.inr (Or.inl he)
  · rw [h] at he
    simp only [List.mem_append, List.mem_singleton] at he
    rcases he with (he | he) | he
    · exact Or.inl (hcc e he)
    · exact Or.inr (Or.inl (hca e he))
    · exact Or.inr (Or.inr he)
  · rw [h] at he
    simp only [List.mem_append, List.mem_singleton] at he
    rcases he with (he | he) | he
    · exact Or.inl (hcc e he)
    · exact Or.inr (Or.inl (hca e he))
    · exact Or.inr (Or.inr he)

/-- The switch makes no `SetDeadline` and no `Close` call. -/
theorem dialTransport_trace_calls (w : Net) (address : String) (config : Config) :
    ∀ e ∈ (dialTransport w address config).trace,
      e.isSetDeadline = false ∧ e.isClose = false := by
  intro e he
  by_cases h1 : config.Transport = "tcp"
  · rcases dialTransport_tcp w address config h1 with ⟨_, _, h⟩ | ⟨_, _, _, _, h⟩ | ⟨_, _, _, _, h⟩
    · rw [h] at he
      simp only [List.mem_singleton] at he
      subst he; exact ⟨rfl, rfl⟩
    all_goals
      rw [h] at he
      simp only [List.mem_cons, List.mem_singleton, List.not_mem_nil, or_false] at he
      rcases he with he | he <;> subst he <;> exact ⟨rfl, rfl⟩
  · by_cases h2 : config.Transport = "tls"
    · rcases dialTransport_tls w address config h2 with
        ⟨_, _, h⟩ | ⟨_, _, _, _, h⟩ | ⟨_, _, _, _, _, h⟩ | ⟨_, fd, t, _, _, _, h⟩
      · rw [h] at he
        simp only [List.mem_singleton] at he
        subst he; exact ⟨rfl, rfl⟩
      · rw [h] at he
        simp only [List.mem_cons, List.mem_singleton, List.not_mem_nil, or_false] at he
        rcases he with he | he <;> subst he <;> exact ⟨rfl, rfl⟩
      · rw [h] at he
        simp only [List.mem_cons, List.mem_singleton, List.not_mem_nil, or_false] at he
        rcases he with he | he <;> subst he <;> exact ⟨rfl, rfl⟩
      · rw [h] at he
        simp only [List.mem_append, List.mem_cons, List.mem_singleton, List.not_mem_nil,
          or_false] at he
        rcases he with (he | he) | he
        · subst he; exact ⟨rfl, rfl⟩
        · subst he; exact ⟨rfl, rfl⟩
        · rcases tlsClient_trace_calls w fd t e he with he | he | he <;> subst he <;>
            exact ⟨rfl, rfl⟩
    · rcases dialTransport_default w address config h1 h2 with
        ⟨_, _, h⟩ | ⟨_, _, _, _, h⟩ | ⟨_, _, _, _, h⟩
      · rw [h] at he
        simp only [List.mem_singleton] at he
        subst he; exact ⟨rfl, rfl⟩
      all_goals
        rw [h] at he
        simp only [List.mem_cons, List.mem_singleton, List.not_mem_nil, or_false] at he
        rcases he with he | he <;> subst he <;> exact ⟨rfl, rfl⟩


/-- The deadline block with a positive timeout makes exactly one call,
`SetDeadline`, at `time.Now()` plus the `int64` duration. -/
theorem finish_trace_pos (w : Net) (config : Config) (conn : NetConn)
    (hpos : 0 < config.Timeout) :
    (finish w config conn).trace = [.setDeadline conn (deadlineAt w config.Timeout)] := by
  unfold finish
  rw [if_pos hpos]
  split <;> rfl

/-- The deadline block with a timeout that is not positive makes no call and
returns the handle. -/
theorem finish_nonpos (w : Net) (config : Config) (conn : NetConn)
    (h0 : ¬ 0 < config.Timeout) :
    finish w config conn = ⟨[], .ret (some ⟨conn, config.Transport⟩, none)⟩ := by
  unfold finish
  rw [if_neg h0]

/-- A product of seconds that fits an `int64` is not changed by the `int64`
arithmetic. -/
theorem timeoutDuration_exact (n : Int) (hpos : 0 < n) (hle : n ≤ 9223372036) :
    timeoutDuration n = n * 1000000000 := by
  unfold timeoutDuration wrapInt64 Second
  have h1 : (n + 2 ^ 63) % 2 ^ 64 = n + 2 ^ 63 := by
    apply Int.emod_eq_of_lt <;> omega
  rw [h1]
  have h2 : (n + 2 ^ 63 - 2 ^ 63 : Int) = n := by omega
  rw [h2]
  have h3 : (n * 1000000000 + 2 ^ 63) % 2 ^ 64 = n * 1000000000 + 2 ^ 63 := by
    apply Int.emod_eq_of_lt <;> omega
  rw [h3]
  omega

/-- C1: for a config whose transport is "udp", "tcp" or "tls" and any outcome
of the network primitives, a handle that Connect returns carries
`config.Transport` in its transport field, and its underlying connection is of
the matching kind: the UDP socket dialled for "udp", the TCP socket dialled for
"tcp", a TLS client session (handshake completed) over the dialled TCP socket
for "tls". -/
theorem connect_handle_matches_transport (w : Net) (address : String) (config : Config)
    (h : Connection) (e : Option Error)
    (ht : config.Transport = "udp" ∨ config.Transport = "tcp" ∨ config.Transport = "tls")
    (hs : (Connect w address config).out = .ret (some h, e)) :
    h.transport = config.Transport ∧ h.conn.kind = config.Transport ∧
    (config.Transport = "udp" → ∃ addr fd, w.ResolveUDPAddr address = .ok addr ∧
      w.DialUDP addr = .ok fd ∧ h.conn = .udpConn fd) ∧
    (config.Transport = "tcp" → ∃ addr fd, w.ResolveTCPAddr address = .ok addr ∧
      w.DialTCP addr = .ok fd ∧ h.conn = .tcpConn fd) ∧
    (config.Transport = "tls" → ∃ addr fd cfg, w.ResolveTCPAddr address = .ok addr ∧
      w.DialTCP addr = .ok fd ∧ w.Handshake fd cfg = none ∧ h.conn = .tlsConn fd cfg) := by
  rcases dialTransport_cases w address config with
    ⟨tr, msg, hd⟩ | ⟨tr, err, hd⟩ | ⟨tr, conn, hd⟩
  · rw [Connect_of_fault hd] at hs; simp at hs
  · rw [Connect_of_error hd] at hs; simp at hs
  · rw [Connect_of_conn hd] at hs
    simp only at hs
    have hh : h = ⟨conn, config.Transport⟩ := by
      rcases finish_out w config conn with hf | ⟨err, hf⟩
      · rw [hf] at hs
        simp only [Outcome.ret.injEq, Prod.mk.injEq, Option.some.injEq] at hs
        exact hs.1.symm
      · rw [hf] at hs; simp at hs
    subst hh
    refine ⟨rfl, ?_⟩
    rcases ht with ht | ht | ht
    · have h1 : config.Transport ≠ "tcp" := by rw [ht]; decide
      have h2 : config.Transport ≠ "tls" := by rw [ht]; decide
      rcases dialTransport_default w address config h1 h2 with
        ⟨_, _, hx⟩ | ⟨_, _, _, _, hx⟩ | ⟨addr, fd, hr, hdl, hx⟩
      · rw [hx] at hd; simp at hd
      · rw [hx] at hd; simp at hd
      · rw [hx] at hd
        simp only [Run.mk.injEq, Outcome.ret.injEq, Except.ok.injEq] at hd
        rw [← hd.2]
        exact ⟨by simp [NetConn.kind, ht], fun _ => ⟨addr, fd, hr, hdl, rfl⟩,
          fun hc => absurd hc h1, fun hc => absurd hc h2⟩
    · have h1 : config.Transport ≠ "udp" := by rw [ht]; decide
      have h2 : config.Transport ≠ "tls" := by rw [ht]; decide
      rcases dialTransport_tcp w address config ht with
        ⟨_, _, hx⟩ | ⟨_, _, _, _, hx⟩ | ⟨addr, fd, hr, hdl, hx⟩
      · rw [hx] at hd; simp at hd
      · rw [hx] at hd; simp at hd
      · rw [hx] at hd
        simp only [Run.mk.injEq, Outcome.ret.injEq, Except.ok.injEq] at hd
        rw [← hd.2]
        exact ⟨by simp [NetConn.kind, ht], fun hc => absurd hc h1,
          fun _ => ⟨addr, fd, hr, hdl, rfl⟩, fun hc => absurd hc h2⟩
    · have h1 : config.Transport ≠ "udp" := by rw [ht]; decide
      have h2 : config.Transport ≠ "tcp" := by rw [ht]; decide
      rcases dialTransport_tls w address config ht with
        ⟨_, _, hx⟩ | ⟨_, _, _, _, hx⟩ | ⟨_, _, _, _, _, hx⟩ | ⟨addr, fd, t, hr, hdl, _, hx⟩
      · rw [hx] at hd; simp at hd
      · rw [hx] at hd; simp at hd
      · rw [hx] at hd; simp at hd
      · rw [hx] at hd
        simp only [Run.mk.injEq] at hd
        rcases tlsClient_cases w fd t with
          ⟨_, _, _, hc⟩ | ⟨_, _, _, hc⟩ | ⟨_, _, _, _, hc⟩ | ⟨_, _, hhs, hc⟩
        · rw [hc] at hd; simp at hd
        · rw [hc] at hd; simp at hd
        · rw [hc] at hd; simp at hd
        · rw [hc] at hd
          simp only [Outcome.ret.injEq, Except.ok.injEq] at hd
          rw [← hd.2]
          exact ⟨by simp [NetConn.kind, ht], fun hc => absurd hc h1, fun hc => absurd hc h2,
            fun _ => ⟨addr, fd, referenceTlsConfig w t, hr, hdl, hhs, rfl⟩⟩

/-- C1 at a concrete input: a "tls" connect in the all-succeeding environment
returns a handle tagged "tls" over a TLS session. -/
theorem connect_handle_matches_transport_witness :
    (Connect okNet "h:6514" ⟨"tls", 0, some ⟨"", "", "", "", false⟩⟩).out =
      .ret (some ⟨.tlsConn 3 ⟨false, "", [], none⟩, "tls"⟩, none) ∧
    (⟨.tlsConn 3 ⟨false, "", [], none⟩, "tls"⟩ : Connection).transport = "tls" ∧
    (⟨.tlsConn 3 ⟨false, "", [], none⟩, "tls"⟩ : Connection).conn.kind = "tls" :=
  have h := connect_handle_matches_transport okNet "h:6514"
    ⟨"tls", 0, some ⟨"", "", "", "", false⟩⟩ ⟨.tlsConn 3 ⟨false, "", [], none⟩, "tls"⟩ none
    (by decide) (by decide)
  ⟨by decide, h.1, h.2.1⟩

/-- C10: with `timeout = 0` Connect makes no SetDeadline call for any transport,
makes exactly the calls of the dial stage (for tls: dial, TLS setup and
handshake), and its result is that stage's result: its panic, its error with no
handle, or a handle around its connection with no error. -/
theorem connect_zero_timeout_no_deadline (w : Net) (address : String) (config : Config)
    (h0 : config.Timeout = 0) :
    (∀ e ∈ (Connect w address config).trace, e.isSetDeadline = false) ∧
    (Connect w address config).trace = (dialTransport w address config).trace ∧
    (Connect w address config).out =
      (match (dialTransport w address config).out with
        | .fault msg => .fault msg
        | .ret (.error err) => .ret (none, some err)
        | .ret (.ok conn) => .ret (some ⟨conn, config.Transport⟩, none)) := by
  have hn : ¬ 0 < config.Timeout := by omega
  have key : (Connect w address config).trace = (dialTransport w address config).trace ∧
      (Connect w address config).out =
      (match (dialTransport w address config).out with
        | .fault msg => .fault msg
        | .ret (.error err) => .ret (none, some err)
        | .ret (.ok conn) => .ret (some ⟨conn, config.Transport⟩, none)) := by
    rcases dialTransport_cases w address config with
      ⟨tr, msg, hd⟩ | ⟨tr, err, hd⟩ | ⟨tr, conn, hd⟩
    · rw [Connect_of_fault hd, hd]; exact ⟨rfl, rfl⟩
    · rw [Connect_of_error hd, hd]; exact ⟨rfl, rfl⟩
    · rw [Connect_of_conn hd, hd, finish_nonpos w config conn hn]
      exact ⟨by simp, rfl⟩
  refine ⟨?_, key.1, key.2⟩
  intro e he
  rw [key.1] at he
  exact (dialTransport_trace_calls w address config e he).1

/-- C10 at a concrete input: a "tcp" connect with `timeout = 0` makes the two
dial calls only and returns the handle. -/
theorem connect_zero_timeout_no_deadline_witness :
    (⟨"tcp", 0, none⟩ : Config).Timeout = 0 ∧
    (∀ e ∈ (Connect okNet "h:514" ⟨"tcp", 0, none⟩).trace, e.isSetDeadline = false) ∧
    (Connect okNet "h:514" ⟨"tcp", 0, none⟩).trace =
      (dialTransport okNet "h:514" ⟨"tcp", 0, none⟩).trace :=
  have h := connect_zero_timeout_no_deadline okNet "h:514" ⟨"tcp", 0, none⟩ rfl
  ⟨rfl, h.1, h.2.1⟩


/-- An `int64` value is its own two's complement reading. -/
theorem wrapInt64_of_inInt64 (x : Int) (h : inInt64 x) : wrapInt64 x = x := by
  unfold inInt64 at h
  unfold wrapInt64
  have h1 : (x + 2 ^ 63) % 2 ^ 64 = x + 2 ^ 63 := by
    apply Int.emod_eq_of_lt <;> omega
  rw [h1]
  omega

/-- C7, as amended: after a successful dial stage and for a timeout `N > 0` in
the `int64` range, Connect calls SetDeadline exactly once, on the dialled
connection, at the current time plus the `int64` product `N * 1_000_000_000`
(which wraps modulo 2^64); when `N ≤ 9223372036` that product is exact, so the
deadline is the current time plus exactly `N` seconds and is not earlier than
the current time. -/
theorem connect_deadline_in_range (w : Net) (address : String) (config : Config)
    (tr : List Event) (conn : NetConn)
    (hd : dialTransport w address config = ⟨tr, .ret (.ok conn)⟩)
    (hpos : 0 < config.Timeout) (hin : inInt64 config.Timeout) :
    (Connect w address config).trace =
      tr ++ [.setDeadline conn (w.Now + wrapInt64 (config.Timeout * 1000000000))] ∧
    (Connect w address config).trace.filter Event.isSetDeadline =
      [.setDeadline conn (w.Now + wrapInt64 (config.Timeout * 1000000000))] ∧
    (config.Timeout ≤ 9223372036 →
      (Connect w address config).trace.filter Event.isSetDeadline =
        [.setDeadline conn (w.Now + config.Timeout * 1000000000)] ∧
      w.Now ≤ w.Now + wrapInt64 (config.Timeout * 1000000000)) := by
  have hdl : deadlineAt w config.Timeout =
      w.Now + wrapInt64 (config.Timeout * 1000000000) := by
    unfold deadlineAt timeoutDuration Second
    rw [wrapInt64_of_inInt64 _ hin]
  have htr : (Connect w address config).trace =
      tr ++ [.setDeadline conn (w.Now + wrapInt64 (config.Timeout * 1000000000))] := by
    rw [Connect_of_conn hd, finish_trace_pos w config conn hpos, hdl]
  have hnil : tr.filter Event.isSetDeadline = [] := by
    rw [List.filter_eq_nil_iff]
    intro e he
    have := (dialTransport_trace_calls w address config e (by rw [hd]; exact he)).1
    simp [this]
  have hfil : (Connect w address config).trace.filter Event.isSetDeadline =
      [.setDeadline conn (w.Now + wrapInt64 (config.Timeout * 1000000000))] := by
    rw [htr, List.filter_append, hnil]
    simp [Event.isSetDeadline]
  refine ⟨htr, hfil, ?_⟩
  intro hle
  have hex : wrapInt64 (config.Timeout * 1000000000) = config.Timeout * 1000000000 := by
    have := timeoutDuration_exact config.Timeout hpos hle
    unfold timeoutDuration Second at this
    rw [wrapInt64_of_inInt64 _ hin] at this
    exact this
  refine ⟨by rw [hfil, hex], ?_⟩
  rw [hex]
  omega

/-- C7 as amended, at a concrete input: a "udp" connect with `timeout = 5` when
the clock reads 1000 sets the deadline 5000001000. -/
theorem connect_deadline_in_range_witness :
    dialTransport okNet "h:514" ⟨"udp", 5, none⟩ =
      ⟨[.resolveUDPAddr "h:514", .dialUDP "h:514"], .ret (.ok (.udpConn 3))⟩ ∧
    (Connect okNet "h:514" ⟨"udp", 5, none⟩).trace.filter Event.isSetDeadline =
      [.setDeadline (.udpConn 3) (okNet.Now + wrapInt64 ((5 : Int) * 1000000000))] :=
  have h := connect_deadline_in_range okNet "h:514" ⟨"udp", 5, none⟩
    [.resolveUDPAddr "h:514", .dialUDP "h:514"] (.udpConn 3) rfl (by decide) (by decide)
  ⟨rfl, h.2.1⟩

/-- C7 fails as stated: `timeout = 9223372037` is a positive `int64`, but
`9223372037 * 1_000_000_000` exceeds 2^63 - 1 and wraps to a negative duration:
with the clock at 1000 the one SetDeadline call is at `-9223372036709550616`,
which is earlier than the current time and is not the current time plus
9223372037 seconds. -/
theorem connect_deadline_overflow :
    Connect okNet "h:514" ⟨"udp", 9223372037, none⟩ =
      ⟨[.resolveUDPAddr "h:514", .dialUDP "h:514",
          .setDeadline (.udpConn 3) (-9223372036709550616)],
        .ret (some ⟨.udpConn 3, "udp"⟩, none)⟩ ∧
    inInt64 9223372037 ∧
    (-9223372036709550616 : Int) < okNet.Now ∧
    (-9223372036709550616 : Int) ≠ okNet.Now + 9223372037 * 1000000000 := by
  decide

/-- With a transport string other than "udp", "tcp" and "tls", Connect makes the
calls of the "udp" run and ends as the "udp" run does, except that a handle it
returns carries the transport string as given instead of "udp". -/
theorem connect_fallback_runs_udp_path (w : Net) (address : String) (config : Config)
    (h2 : config.Transport ≠ "tcp") (h3 : config.Transport ≠ "tls") :
    (Connect w address config).trace =
      (Connect w address { config with Transport := "udp" }).trace ∧
    (∀ err, (Connect w address config).out = .ret (none, some err) ↔
      (Connect w address { config with Transport := "udp" }).out = .ret (none, some err)) ∧
    (∀ conn, (Connect w address config).out = .ret (some ⟨conn, config.Transport⟩, none) ↔
      (Connect w address { config with Transport := "udp" }).out =
        .ret (some ⟨conn, "udp"⟩, none)) ∧
    (∀ h e, (Connect w address config).out = .ret (some h, e) →
      h.transport = config.Transport) := by
  have hdt : dialTransport w address { config with Transport := "udp" } =
      dialTransport w address config := by
    simp [dialTransport, h2, h3]
  have hlast : ∀ h e, (Connect w address config).out = .ret (some h, e) →
      h.transport = config.Transport := by
    intro h e hs
    rcases dialTransport_cases w address config with
      ⟨tr, msg, hd⟩ | ⟨tr, err, hd⟩ | ⟨tr, conn, hd⟩
    · rw [Connect_of_fault hd] at hs; simp at hs
    · rw [Connect_of_error hd] at hs; simp at hs
    · rw [Connect_of_conn hd] at hs
      rcases finish_out w config conn with hf | ⟨err, hf⟩
      · simp only [hf, Outcome.ret.injEq, Prod.mk.injEq, Option.some.injEq] at hs
        rw [← hs.1]
      · simp [hf] at hs
  refine ⟨?_, ?_, ?_, hlast⟩
  all_goals
    rcases dialTransport_cases w address config with
      ⟨tr, msg, hd⟩ | ⟨tr, err, hd⟩ | ⟨tr, conn, hd⟩
  · rw [Connect_of_fault hd, Connect_of_fault (hdt.trans hd)]
  · rw [Connect_of_error hd, Connect_of_error (hdt.trans hd)]
  · rw [Connect_of_conn hd, Connect_of_conn (hdt.trans hd)]
    unfold finish
    simp only
    split
    · split <;> rfl
    · rfl
  · intro err; rw [Connect_of_fault hd, Connect_of_fault (hdt.trans hd)]
  · intro err; rw [Connect_of_error hd, Connect_of_error (hdt.trans hd)]
  · intro err
    rw [Connect_of_conn hd, Connect_of_conn (hdt.trans hd)]
    unfold finish
    simp only
    split
    · split <;> simp
    · simp
  · intro c; rw [Connect_of_fault hd, Connect_of_fault (hdt.trans hd)]; simp
  · intro c; rw [Connect_of_error hd, Connect_of_error (hdt.trans hd)]; simp
  · intro c
    rw [Connect_of_conn hd, Connect_of_conn (hdt.trans hd)]
    unfold finish
    simp only
    split
    · split <;> simp
    · simp

/-- C2 on the code: with the empty transport string (the value of an absent
`transport` field) Connect takes the UDP path, but the handle it returns is
tagged with the empty string, not with "udp" as the handle of the "udp" run is. -/
theorem connect_empty_transport_tag :
    Connect okNet "h:514" ⟨"", 0, none⟩ =
      ⟨[.resolveUDPAddr "h:514", .dialUDP "h:514"], .ret (some ⟨.udpConn 3, ""⟩, none)⟩ ∧
    Connect okNet "h:514" ⟨"udp", 0, none⟩ =
      ⟨[.resolveUDPAddr "h:514", .dialUDP "h:514"], .ret (some ⟨.udpConn 3, "udp"⟩, none)⟩ ∧
    Connect okNet "h:514" ⟨"", 0, none⟩ ≠ Connect okNet "h:514" ⟨"udp", 0, none⟩ := by
  decide

/-- C5 on the code: a "tls" connect with a nil TLS sub-configuration resolves,
dials and then stops with a nil pointer dereference, while the same connect with
a TLS sub-configuration whose fields are all empty goes on to the handshake and
returns a handle. -/
theorem connect_tls_nil_config_faults :
    Connect okNet "h:6514" ⟨"tls", 0, none⟩ =
      ⟨[.resolveTCPAddr "h:6514", .dialTCP "h:6514"],
        .fault "invalid memory address or nil pointer dereference"⟩ ∧
    Connect okNet "h:6514" ⟨"tls", 0, some ⟨"", "", "", "", false⟩⟩ =
      ⟨[.resolveTCPAddr "h:6514", .dialTCP "h:6514", .handshake 3 ⟨false, "", [], none⟩],
        .ret (some ⟨.tlsConn 3 ⟨false, "", [], none⟩, "tls"⟩, none)⟩ := by
  decide

/-- C3 on the code: in a "tls" connect with a nil TLS sub-configuration every
stage that runs (address resolution, TCP dial) succeeds, yet Connect returns
neither a handle nor an error: it does not return. -/
theorem connect_tls_nil_config_returns_nothing :
    (Connect okNet "h:6514" ⟨"tls", 5, none⟩).trace =
      [.resolveTCPAddr "h:6514", .dialTCP "h:6514"] ∧
    (∀ e ∈ (Connect okNet "h:6514" ⟨"tls", 5, none⟩).trace, e.fails okNet = false) ∧
    ∀ r, (Connect okNet "h:6514" ⟨"tls", 5, none⟩).out ≠ .ret r := by
  refine ⟨by decide, by decide, ?_⟩
  intro r hr
  have h : (Connect okNet "h:6514" ⟨"tls", 5, none⟩).out =
      .fault "invalid memory address or nil pointer dereference" := by decide
  rw [h] at hr
  exact Outcome.noConfusion hr


/-- Every call of a `Connect` run is a call of the switch or a `SetDeadline`. -/
theorem Connect_trace_mem (w : Net) (address : String) (config : Config) :
    ∀ e ∈ (Connect w address config).trace,
      e ∈ (dialTransport w address config).trace ∨ e.isSetDeadline = true := by
  intro e he
  rcases dialTransport_cases w address config with
    ⟨tr, msg, hd⟩ | ⟨tr, err, hd⟩ | ⟨tr, conn, hd⟩
  · rw [Connect_of_fault hd] at he; rw [hd]; exact Or.inl he
  · rw [Connect_of_error hd] at he; rw [hd]; exact Or.inl he
  · rw [Connect_of_conn hd] at he
    rw [hd]
    simp only [List.mem_append] at he
    rcases he with he | he
    · exact Or.inl he
    · right
      unfold finish at he
      split at he
      · split at he <;> simp only [List.mem_singleton] at he <;> subst he <;> rfl
      · simp at he

/-- A `Connect` run returns a handle only if its switch left a connection. -/
theorem Connect_handle_inv (w : Net) (address : String) (config : Config)
    (h : Connection) (e : Option Error)
    (hs : (Connect w address config).out = .ret (some h, e)) :
    ∃ tr, dialTransport w address config = ⟨tr, .ret (.ok h.conn)⟩ := by
  rcases dialTransport_cases w address config with
    ⟨tr, msg, hd⟩ | ⟨tr, err, hd⟩ | ⟨tr, conn, hd⟩
  · rw [Connect_of_fault hd] at hs; simp at hs
  · rw [Connect_of_error hd] at hs; simp at hs
  · rw [Connect_of_conn hd] at hs
    rcases finish_out w config conn with hf | ⟨err, hf⟩
    · simp only [hf, Outcome.ret.injEq, Prod.mk.injEq, Option.some.injEq] at hs
      rw [← hs.1]
      exact ⟨tr, hd⟩
    · simp [hf] at hs

/-- In a "tls" run with a TLS sub-configuration, a handshake takes place only
after resolution, dial, key pair load and CA parse have succeeded, and it is
handed the reference configuration. -/
theorem dialTransport_tls_handshake (w : Net) (address : String) (config : Config)
    (t : TLSConfig) (ht : config.Transport = "tls") (hT : config.TLS = some t) :
    ∀ e ∈ (dialTransport w address config).trace, e.isHandshake = true →
      ∃ addr fd, w.ResolveTCPAddr address = .ok addr ∧ w.DialTCP addr = .ok fd ∧
        certLoads w t ∧ caParses w t ∧ e = .handshake fd (referenceTlsConfig w t) := by
  intro e he hh
  have hcc : ∀ x ∈ certCalls t, x.isHandshake = false := by
    intro x hx
    unfold certCalls at hx
    split at hx
    · simp only [List.mem_singleton] at hx; subst hx; rfl
    · simp at hx
  have hca : ∀ x ∈ caCalls t, x.isHandshake = false := by
    intro x hx
    unfold caCalls at hx
    split at hx
    · simp only [List.mem_singleton] at hx; subst hx; rfl
    · simp at hx
  rcases dialTransport_tls w address config ht with
    ⟨_, _, h⟩ | ⟨_, _, _, _, h⟩ | ⟨_, _, _, _, hN, h⟩ | ⟨addr, fd, t', hr, hdl, hT', h⟩
  · rw [h] at he
    simp only [List.mem_singleton] at he
    subst he; simp [Event.isHandshake] at hh
  · rw [h] at he
    simp only [List.mem_cons, List.mem_singleton, List.not_mem_nil, or_false] at he
    rcases he with he | he <;> subst he <;> simp [Event.isHandshake] at hh
  · rw [hT] at hN; simp at hN
  · have htt : t' = t := by
      rw [hT] at hT'
      exact (Option.some.inj hT').symm
    subst htt
    rw [h] at he
    simp only [List.mem_append, List.mem_cons, List.mem_singleton, List.not_mem_nil,
      or_false] at he
    rcases he with (he | he) | he
    · subst he; simp [Event.isHandshake] at hh
    · subst he; simp [Event.isHandshake] at hh
    · rcases tlsClient_cases w fd t' with
        ⟨_, _, _, hc⟩ | ⟨_, _, _, hc⟩ | ⟨_, hcl, hcp, _, hc⟩ | ⟨hcl, hcp, _, hc⟩
      · rw [hc] at he
        simp only [List.mem_singleton] at he
        subst he; simp [Event.isHandshake] at hh
      · rw [hc] at he
        simp only [List.mem_append, List.mem_singleton] at he
        rcases he with he | he
        · rw [hcc e he] at hh; simp at hh
        · subst he; simp [Event.isHandshake] at hh
      · rw [hc] at he
        simp only [List.mem_append, List.mem_singleton] at he
        rcases he with (he | he) | he
        · rw [hcc e he] at hh; simp at hh
        · rw [hca e he] at hh; simp at hh
        · exact ⟨addr, fd, hr, hdl, hcl, hcp, he⟩
      · rw [hc] at he
        simp only [List.mem_append, List.mem_singleton] at he
        rcases he with (he | he) | he
        · rw [hcc e he] at hh; simp at hh
        · rw [hca e he] at hh; simp at hh
        · exact ⟨addr, fd, hr, hdl, hcl, hcp, he⟩

/-- The same for the whole `Connect` run. -/
theorem Connect_tls_handshake (w : Net) (address : String) (config : Config)
    (t : TLSConfig) (ht : config.Transport = "tls") (hT : config.TLS = some t) :
    ∀ e ∈ (Connect w address config).trace, e.isHandshake = true →
      ∃ addr fd, w.ResolveTCPAddr address = .ok addr ∧ w.DialTCP addr = .ok fd ∧
        certLoads w t ∧ caParses w t ∧ e = .handshake fd (referenceTlsConfig w t) := by
  intro e he hh
  rcases Connect_trace_mem w address config e he with h | h
  · exact dialTransport_tls_handshake w address config t ht hT e h hh
  · cases e <;> simp [Event.isHandshake, Event.isSetDeadline] at hh h

/-- The switch of a "tls" run once resolution and dial have succeeded. -/
theorem dialTransport_tls_dialled (w : Net) (address : String) (config : Config)
    (t : TLSConfig) (addr : TCPAddr) (fd : Socket)
    (ht : config.Transport = "tls") (hT : config.TLS = some t)
    (hr : w.ResolveTCPAddr address = .ok addr) (hdl : w.DialTCP addr = .ok fd) :
    dialTransport w address config =
      ⟨[.resolveTCPAddr address, .dialTCP addr] ++ (tlsClient w fd t).trace,
        (tlsClient w fd t).out⟩ := by
  simp [dialTransport, ht, hT, hr, hdl]


/-- C4, as amended: in a "tls" connect whose `clientCert` and `clientKey` are
both non-empty and do not load as a key pair, the handshake is never attempted
and no handle is returned, and once resolution and the TCP dial have succeeded
Connect fails with the TLS-setup error "failed to load client cert/key"
wrapping the loader's error.  When `clientCert` or `clientKey` is empty no key
pair is loaded at all: Connect runs exactly as with both left empty, and goes on
to the handshake once resolution, dial and CA parse have succeeded. -/
theorem connect_client_cert_stage (w : Net) (address : String) (config : Config)
    (t : TLSConfig) (ht : config.Transport = "tls") (hT : config.TLS = some t) :
    (∀ err, t.ClientCert ≠ "" → t.ClientKey ≠ "" →
      w.X509KeyPair t.ClientCert t.ClientKey = .error err →
      (∀ e ∈ (Connect w address config).trace, e.isHandshake = false) ∧
      (∀ h e, (Connect w address config).out ≠ .ret (some h, e)) ∧
      (∀ addr fd, w.ResolveTCPAddr address = .ok addr → w.DialTCP addr = .ok fd →
        Connect w address config =
          ⟨[.resolveTCPAddr address, .dialTCP addr, .x509KeyPair t.ClientCert t.ClientKey],
            .ret (none, some (.wrapf "failed to load client cert/key: %w" err))⟩)) ∧
    (t.ClientCert = "" ∨ t.ClientKey = "" →
      (∀ e ∈ (Connect w address config).trace, ∀ c k, e ≠ .x509KeyPair c k) ∧
      Connect w address config =
        Connect w address
          { config with TLS := some { t with ClientCert := "", ClientKey := "" } } ∧
      (∀ addr fd, w.ResolveTCPAddr address = .ok addr → w.DialTCP addr = .ok fd →
        caParses w t →
        Event.handshake fd (referenceTlsConfig w t) ∈ (Connect w address config).trace)) := by
  constructor
  · intro err h1 h2 hk
    have hno : ¬ certLoads w t := by
      intro hcl
      rcases hcl ⟨h1, h2⟩ with ⟨cert, hc⟩
      rw [hk] at hc
      exact Except.noConfusion hc
    have hhs : ∀ e ∈ (Connect w address config).trace, e.isHandshake = false := by
      intro e he
      by_contra hne
      have htrue : e.isHandshake = true := by
        cases hb : e.isHandshake
        · exact absurd hb hne
        · rfl
      rcases Connect_tls_handshake w address config t ht hT e he htrue with
        ⟨_, _, _, _, hcl, _, _⟩
      exact hno hcl
    have hfull : ∀ addr fd, w.ResolveTCPAddr address = .ok addr → w.DialTCP addr = .ok fd →
        Connect w address config =
          ⟨[.resolveTCPAddr address, .dialTCP addr, .x509KeyPair t.ClientCert t.ClientKey],
            .ret (none, some (.wrapf "failed to load client cert/key: %w" err))⟩ := by
      intro addr fd hr hdl
      have hd := dialTransport_tls_dialled w address config t addr fd ht hT hr hdl
      rcases tlsClient_cases w fd t with
        ⟨err', _, hk', hc⟩ | ⟨hcl, _⟩ | ⟨_, hcl, _⟩ | ⟨hcl, _⟩
      · rw [hk] at hk'
        have : err = err' := by injection hk'
        subst this
        rw [hc] at hd
        exact Connect_of_error hd
      · exact absurd hcl hno
      · exact absurd hcl hno
      · exact absurd hcl hno
    refine ⟨hhs, ?_, hfull⟩
    intro h e hs
    rcases Connect_handle_inv w address config h e hs with ⟨tr, hd⟩
    rcases dialTransport_tls w address config ht with
      ⟨_, _, hx⟩ | ⟨_, _, _, _, hx⟩ | ⟨_, _, _, _, _, hx⟩ | ⟨addr, fd, t', hr, hdl, _, _⟩
    · rw [hx] at hd; simp at hd
    · rw [hx] at hd; simp at hd
    · rw [hx] at hd; simp at hd
    · rw [hfull addr fd hr hdl] at hs
      simp at hs
  · intro hemp
    have hcond : ¬ (t.ClientCert ≠ "" ∧ t.ClientKey ≠ "") := by
      intro hc
      rcases hemp with h | h
      · exact hc.1 h
      · exact hc.2 h
    have hcc : certCalls t = [] := by simp only [certCalls, if_neg hcond]
    have hcl : certLoads w t := fun h => absurd h hcond
    have hsame : ∀ fd, tlsClient w fd { t with ClientCert := "", ClientKey := "" } =
        tlsClient w fd t := by
      intro fd
      simp only [tlsClient, loadClientCert, if_neg hcond]
      simp [loadCA]
    refine ⟨?_, ?_, ?_⟩
    · intro e he c k hek
      subst hek
      rcases Connect_trace_mem w address config _ he with h | h
      · rcases dialTransport_tls w address config ht with
          ⟨_, _, hx⟩ | ⟨_, _, _, _, hx⟩ | ⟨_, _, _, _, _, hx⟩ | ⟨addr, fd, t', hr, hdl, hT', hx⟩
        · rw [hx] at h; simp at h
        · rw [hx] at h; simp at h
        · rw [hx] at h; simp at h
        · have htt : t' = t := by
            rw [hT] at hT'
            exact (Option.some.inj hT').symm
          subst htt
          rw [hx] at h
          simp only [List.mem_append, List.mem_cons, List.mem_singleton, List.not_mem_nil,
            or_false] at h
          rcases h with (h | h) | h
          · exact Event.noConfusion h
          · exact Event.noConfusion h
          · rcases tlsClient_cases w fd t' with
              ⟨_, hc, _, _⟩ | ⟨_, _, _, hc⟩ | ⟨_, _, _, _, hc⟩ | ⟨_, _, _, hc⟩
            · exact hcond hc
            · rw [hc, hcc] at h; simp at h
            · rw [hc, hcc] at h
              simp only [List.nil_append, List.mem_append, List.mem_singleton] at h
              rcases h with h | h
              · unfold caCalls at h
                split at h <;> simp at h
              · exact Event.noConfusion h
            · rw [hc, hcc] at h
              simp only [List.nil_append, List.mem_append, List.mem_singleton] at h
              rcases h with h | h
              · unfold caCalls at h
                split at h <;> simp at h
              · exact Event.noConfusion h
      · simp [Event.isSetDeadline] at h
    · have hdt : dialTransport w address
          { config with TLS := some { t with ClientCert := "", ClientKey := "" } } =
          dialTransport w address config := by
        simp only [dialTransport, hT, hsame]
      unfold Connect
      rw [hdt]
      rfl
    · intro addr fd hr hdl hcp
      have hd := dialTransport_tls_dialled w address config t addr fd ht hT hr hdl
      have hmem : Event.handshake fd (referenceTlsConfig w t) ∈ (tlsClient w fd t).trace := by
        rcases tlsClient_cases w fd t with
          ⟨_, hc, _, _⟩ | ⟨_, hne, hp, _⟩ | ⟨_, _, _, _, hc⟩ | ⟨_, _, _, hc⟩
        · exact absurd hc hcond
        · exact absurd hp (hcp hne)
        · rw [hc]; simp
        · rw [hc]; simp
      rcases htc : tlsClient w fd t with ⟨ttr, tout⟩
      rw [htc] at hd hmem
      simp only at hd hmem
      rcases tout with (r | msg)
      · rcases r with (err | conn)
        · rw [Connect_of_error hd]; simp [hmem]
        · rw [Connect_of_conn hd]; simp [hmem]
      · rw [Connect_of_fault hd]; simp [hmem]

/-- C4 as amended, at a concrete input: a mismatched pair stops Connect with the
TLS-setup error after the dial, with no handshake. -/
theorem connect_client_cert_stage_witness :
    Connect keyPairFailNet "h:6514" ⟨"tls", 0, some ⟨"", "CERT", "KEY", "", false⟩⟩ =
      ⟨[.resolveTCPAddr "h:6514", .dialTCP "h:6514", .x509KeyPair "CERT" "KEY"],
        .ret (none, some (.wrapf "failed to load client cert/key: %w"
          (.lib "tls: failed to find any PEM data in certificate input")))⟩ :=
  ((connect_client_cert_stage keyPairFailNet "h:6514"
    ⟨"tls", 0, some ⟨"", "CERT", "KEY", "", false⟩⟩ ⟨"", "CERT", "KEY", "", false⟩ rfl rfl).1
    (.lib "tls: failed to find any PEM data in certificate input") (by decide) (by decide) rfl).2.2
    "h:6514" 3 rfl rfl

/-- C4 fails as stated: with `clientCert` given and `clientKey` empty (and
verification switched off by the user), Connect loads no key pair, raises no
TLS-setup error, performs the handshake (with no client certificate) and
returns a handle. -/
theorem connect_cert_without_key_handshakes :
    Connect okNet "h:6514" ⟨"tls", 0, some ⟨"", "CERT", "", "", true⟩⟩ =
      ⟨[.resolveTCPAddr "h:6514", .dialTCP "h:6514", .handshake 3 ⟨true, "", [], none⟩],
        .ret (some ⟨.tlsConn 3 ⟨true, "", [], none⟩, "tls"⟩, none)⟩ := by
  decide

/-- The client certificates of the reference configuration, when the key pair
stage succeeds: one certificate exactly when both PEM texts are given. -/
theorem referenceTlsConfig_certificates (w : Net) (t : TLSConfig) (hcl : certLoads w t) :
    (referenceTlsConfig w t).Certificates ≠ [] ↔ (t.ClientCert ≠ "" ∧ t.ClientKey ≠ "") := by
  simp only [referenceTlsConfig]
  by_cases h1 : t.ClientCert = ""
  · simp [h1]
  · by_cases h2 : t.ClientKey = ""
    · simp [h1, h2]
    · rcases hcl ⟨h1, h2⟩ with ⟨cert, hc⟩
      simp [h1, h2, hc]

/-- C8: in a "tls" connect with a TLS sub-configuration present, every handshake
is handed the reference configuration built from the config: InsecureSkipVerify
is true exactly when the user's is, ServerName is the user's, the trust roots
are the pool parsed from CA when CA is non-empty and unset (platform default)
when it is empty, and a client certificate is registered exactly when
clientCert and clientKey are both non-empty; a returned handle is a TLS session
with that configuration; the handshake does take place once resolution, dial,
key pair load and CA parse have succeeded; and a non-empty CA from which no
certificate is parsed makes Connect fail without a handshake, with
"failed to parse CA certificate" once the earlier stages have succeeded. -/
theorem connect_tls_config_reference (w : Net) (address : String) (config : Config)
    (t : TLSConfig) (ht : config.Transport = "tls") (hT : config.TLS = some t) :
    (∀ fd cfg, Event.handshake fd cfg ∈ (Connect w address config).trace →
      cfg = referenceTlsConfig w t ∧
      (cfg.InsecureSkipVerify = true ↔ t.InsecureSkipVerify = true) ∧
      cfg.ServerName = t.ServerName ∧
      (t.CA ≠ "" → cfg.RootCAs = some (w.ParseCertsFromPEM t.CA)) ∧
      (t.CA = "" → cfg.RootCAs = none) ∧
      (cfg.Certificates ≠ [] ↔ (t.ClientCert ≠ "" ∧ t.ClientKey ≠ ""))) ∧
    (∀ h e, (Connect w address config).out = .ret (some h, e) →
      ∃ fd, h.conn = .tlsConn fd (referenceTlsConfig w t)) ∧
    (∀ addr fd, w.ResolveTCPAddr address = .ok addr → w.DialTCP addr = .ok fd →
      certLoads w t → caParses w t →
      Event.handshake fd (referenceTlsConfig w t) ∈ (Connect w address config).trace) ∧
    (t.CA ≠ "" → w.ParseCertsFromPEM t.CA = [] →
      (∀ h e, (Connect w address config).out ≠ .ret (some h, e)) ∧
      (∀ e ∈ (Connect w address config).trace, e.isHandshake = false) ∧
      (∀ addr fd, w.ResolveTCPAddr address = .ok addr → w.DialTCP addr = .ok fd →
        certLoads w t →
        Connect w address config =
          ⟨[.resolveTCPAddr address, .dialTCP addr] ++ certCalls t ++
              [.appendCertsFromPEM t.CA],
            .ret (none, some (.errorf "failed to parse CA certificate"))⟩)) := by
  refine ⟨?_, ?_, ?_, ?_⟩
  · intro fd cfg he
    rcases Connect_tls_handshake w address config t ht hT _ he rfl with
      ⟨_, _, _, _, hcl, _, heq⟩
    have hcfg : cfg = referenceTlsConfig w t := by
      injection heq
    subst hcfg
    refine ⟨rfl, Iff.rfl, rfl, ?_, ?_, referenceTlsConfig_certificates w t hcl⟩
    · intro hca; simp [referenceTlsConfig, hca]
    · intro hca; simp [referenceTlsConfig, hca]
  · intro h e hs
    rcases Connect_handle_inv w address config h e hs with ⟨tr, hd⟩
    rcases dialTransport_tls w address config ht with
      ⟨_, _, hx⟩ | ⟨_, _, _, _, hx⟩ | ⟨_, _, _, _, _, hx⟩ | ⟨addr, fd, t', hr, hdl, hT', hx⟩
    · rw [hx] at hd; simp at hd
    · rw [hx] at hd; simp at hd
    · rw [hx] at hd; simp at hd
    · have htt : t' = t := by
        rw [hT] at hT'
        exact (Option.some.inj hT').symm
      subst htt
      rw [hx] at hd
      simp only [Run.mk.injEq] at hd
      rcases tlsClient_cases w fd t' with
        ⟨_, _, _, hc⟩ | ⟨_, _, _, hc⟩ | ⟨_, _, _, _, hc⟩ | ⟨_, _, _, hc⟩
      · rw [hc] at hd; simp at hd
      · rw [hc] at hd; simp at hd
      · rw [hc] at hd; simp at hd
      · rw [hc] at hd
        simp only [Outcome.ret.injEq, Except.ok.injEq] at hd
        exact ⟨fd, hd.2.symm⟩
  · intro addr fd hr hdl hcl hcp
    have hd := dialTransport_tls_dialled w address config t addr fd ht hT hr hdl
    have hno : ¬ (∃ err, w.X509KeyPair t.ClientCert t.ClientKey = Except.error err ∧
        (t.ClientCert ≠ "" ∧ t.ClientKey ≠ "")) := by
      rintro ⟨err, hk, hc⟩
      rcases hcl hc with ⟨cert, hok⟩
      rw [hk] at hok
      exact Except.noConfusion hok
    have hmem : Event.handshake fd (referenceTlsConfig w t) ∈ (tlsClient w fd t).trace := by
      rcases tlsClient_cases w fd t with
        ⟨err, hc, hk, _⟩ | ⟨_, hne, hp, _⟩ | ⟨_, _, _, _, hc⟩ | ⟨_, _, _, hc⟩
      · exact absurd ⟨err, hk, hc⟩ hno
      · exact absurd hp (hcp hne)
      · rw [hc]; simp
      · rw [hc]; simp
    rcases htc : tlsClient w fd t with ⟨ttr, tout⟩
    rw [htc] at hd hmem
    simp only at hd hmem
    rcases tout with (r | msg)
    · rcases r with (err | conn)
      · rw [Connect_of_error hd]; simp [hmem]
      · rw [Connect_of_conn hd]; simp [hmem]
    · rw [Connect_of_fault hd]; simp [hmem]
  · intro hca hp
    have hnp : ¬ caParses w t := fun h => h hca hp
    have hhs : ∀ e ∈ (Connect w address config).trace, e.isHandshake = false := by
      intro e he
      by_contra hne
      have htrue : e.isHandshake = true := by
        cases hb : e.isHandshake
        · exact absurd hb hne
        · rfl
      rcases Connect_tls_handshake w address config t ht hT e he htrue with
        ⟨_, _, _, _, _, hcp, _⟩
      exact hnp hcp
    have hfull : ∀ addr fd, w.ResolveTCPAddr address = .ok addr → w.DialTCP addr = .ok fd →
        certLoads w t →
        Connect w address config =
          ⟨[.resolveTCPAddr address, .dialTCP addr] ++ certCalls t ++
              [.appendCertsFromPEM t.CA],
            .ret (none, some (.errorf "failed to parse CA certificate"))⟩ := by
      intro addr fd hr hdl hcl
      have hd := dialTransport_tls_dialled w address config t addr fd ht hT hr hdl
      rcases tlsClient_cases w fd t with
        ⟨err, hc, hk, _⟩ | ⟨_, _, _, hc⟩ | ⟨_, _, hcp, _⟩ | ⟨_, hcp, _⟩
      · rcases hcl hc with ⟨cert, hok⟩
        rw [hk] at hok
        exact Except.noConfusion hok
      · rw [hc] at hd
        simp only at hd
        rw [Connect_of_error hd, List.append_assoc]
      · exact absurd hcp hnp
      · exact absurd hcp hnp
    refine ⟨?_, hhs, hfull⟩
    intro h e hs
    rcases Connect_handle_inv w address config h e hs with ⟨tr, hd⟩
    rcases dialTransport_tls w address config ht with
      ⟨_, _, hx⟩ | ⟨_, _, _, _, hx⟩ | ⟨_, _, _, _, _, hx⟩ | ⟨addr, fd, t', hr, hdl, hT', hx⟩
    · rw [hx] at hd; simp at hd
    · rw [hx] at hd; simp at hd
    · rw [hx] at hd; simp at hd
    · have htt : t' = t := by
        rw [hT] at hT'
        exact (Option.some.inj hT').symm
      subst htt
      rw [hx] at hd
      simp only [Run.mk.injEq] at hd
      rcases tlsClient_cases w fd t' with
        ⟨_, _, _, hc⟩ | ⟨_, _, _, hc⟩ | ⟨_, _, hcp, _⟩ | ⟨_, hcp, _⟩
      · rw [hc] at hd; simp at hd
      · rw [hc] at hd; simp at hd
      · exact absurd hcp hnp
      · exact absurd hcp hnp

/-- C8 at a concrete input: with CA, client pair, server name and the
verification switch all set, the handshake in the run is handed exactly the
configuration built from them. -/
theorem connect_tls_config_reference_witness :
    Event.handshake 3 ⟨true, "log.example", ["CERTKEY"], some ["ROOT"]⟩ ∈
      (Connect okNet "h:6514"
        ⟨"tls", 0, some ⟨"ROOT", "CERT", "KEY", "log.example", true⟩⟩).trace ∧
    (⟨true, "log.example", ["CERTKEY"], some ["ROOT"]⟩ : TlsClientConfig) =
      referenceTlsConfig okNet ⟨"ROOT", "CERT", "KEY", "log.example", true⟩ :=
  ⟨by decide,
    ((connect_tls_config_reference okNet "h:6514"
      ⟨"tls", 0, some ⟨"ROOT", "CERT", "KEY", "log.example", true⟩⟩
      ⟨"ROOT", "CERT", "KEY", "log.example", true⟩ rfl rfl).1 3
      ⟨true, "log.example", ["CERTKEY"], some ["ROOT"]⟩ (by decide)).1⟩


/-- A `Close` at the end of a sequence of calls releases the socket of its
connection: that socket is not among the open sockets afterwards. -/
theorem openSocketsFrom_append_close (w : Net) (c : NetConn) :
    ∀ (tr : List Event) (opened : List Socket),
      openSocketsFrom w opened (tr ++ [.close c]) =
        (openSocketsFrom w opened tr).filter (fun fd => fd != c.fd) := by
  intro tr
  induction tr with
  | nil => intro opened; simp [openSocketsFrom]
  | cons x rest ih =>
    intro opened
    rw [List.cons_append]
    cases x with
    | dialTCP addr =>
      rcases hd : w.DialTCP addr with err | fd
      · simp only [openSocketsFrom, hd]; exact ih _
      · simp only [openSocketsFrom, hd]; exact ih _
    | dialUDP addr =>
      rcases hd : w.DialUDP addr with err | fd
      · simp only [openSocketsFrom, hd]; exact ih _
      · simp only [openSocketsFrom, hd]; exact ih _
    | close conn => simp only [openSocketsFrom]; exact ih _
    | resolveTCPAddr _ | resolveUDPAddr _ | x509KeyPair _ _ | appendCertsFromPEM _
    | handshake _ _ | setDeadline _ _ | write _ _ =>
      simp only [openSocketsFrom]; exact ih _

/-- In a sequence of calls without a `Close`, every socket that was open before
and every socket that a dial of the sequence opened is open at the end. -/
theorem openSocketsFrom_of_no_close (w : Net) :
    ∀ (tr : List Event) (opened : List Socket), (∀ e ∈ tr, e.isClose = false) →
      (∀ fd ∈ opened, fd ∈ openSocketsFrom w opened tr) ∧
      (∀ addr fd, Event.dialTCP addr ∈ tr → w.DialTCP addr = .ok fd →
        fd ∈ openSocketsFrom w opened tr) ∧
      (∀ addr fd, Event.dialUDP addr ∈ tr → w.DialUDP addr = .ok fd →
        fd ∈ openSocketsFrom w opened tr) := by
  intro tr
  induction tr with
  | nil => intro opened _; simp [openSocketsFrom]
  | cons x rest ih =>
    intro opened hnc
    have hrest : ∀ e ∈ rest, e.isClose = false :=
      fun e he => hnc e (List.mem_cons_of_mem x he)
    have hx := hnc x (List.mem_cons_self x rest)
    cases x with
    | dialTCP addr' =>
      rcases hd' : w.DialTCP addr' with err | fd'
      · have ih' := ih opened hrest
        simp only [openSocketsFrom, hd']
        refine ⟨ih'.1, ?_, ?_⟩
        · intro addr fd hm hd
          simp only [List.mem_cons, Event.dialTCP.injEq] at hm
          rcases hm with hm | hm
          · subst hm; rw [hd'] at hd; exact Except.noConfusion hd
          · exact ih'.2.1 addr fd hm hd
        · intro addr fd hm hd
          have hm' : Event.dialUDP addr ∈ rest := by simpa using hm
          exact ih'.2.2 addr fd hm' hd
      · have ih' := ih (opened ++ [fd']) hrest
        simp only [openSocketsFrom, hd']
        refine ⟨fun fd hfd => ih'.1 fd (List.mem_append_left _ hfd), ?_, ?_⟩
        · intro addr fd hm hd
          simp only [List.mem_cons, Event.dialTCP.injEq] at hm
          rcases hm with hm | hm
          · subst hm
            rw [hd'] at hd
            have hfd : fd' = fd := by injection hd
            subst hfd
            exact ih'.1 fd' (List.mem_append_right _ (List.mem_singleton_self fd'))
          · exact ih'.2.1 addr fd hm hd
        · intro addr fd hm hd
          have hm' : Event.dialUDP addr ∈ rest := by simpa using hm
          exact ih'.2.2 addr fd hm' hd
    | dialUDP addr' =>
      rcases hd' : w.DialUDP addr' with err | fd'
      · have ih' := ih opened hrest
        simp only [openSocketsFrom, hd']
        refine ⟨ih'.1, ?_, ?_⟩
        · intro addr fd hm hd
          have hm' : Event.dialTCP addr ∈ rest := by simpa using hm
          exact ih'.2.1 addr fd hm' hd
        · intro addr fd hm hd
          simp only [List.mem_cons, Event.dialUDP.injEq] at hm
          rcases hm with hm | hm
          · subst hm; rw [hd'] at hd; exact Except.noConfusion hd
          · exact ih'.2.2 addr fd hm hd
      · have ih' := ih (opened ++ [fd']) hrest
        simp only [openSocketsFrom, hd']
        refine ⟨fun fd hfd => ih'.1 fd (List.mem_append_left _ hfd), ?_, ?_⟩
        · intro addr fd hm hd
          have hm' : Event.dialTCP addr ∈ rest := by simpa using hm
          exact ih'.2.1 addr fd hm' hd
        · intro addr fd hm hd
          simp only [List.mem_cons, Event.dialUDP.injEq] at hm
          rcases hm with hm | hm
          · subst hm
            rw [hd'] at hd
            have hfd : fd' = fd := by injection hd
            subst hfd
            exact ih'.1 fd' (List.mem_append_right _ (List.mem_singleton_self fd'))
          · exact ih'.2.2 addr fd hm hd
    | close conn => simp [Event.isClose] at hx
    | resolveTCPAddr _ | resolveUDPAddr _ | x509KeyPair _ _ | appendCertsFromPEM _
    | handshake _ _ | setDeadline _ _ | write _ _ =>
      have ih' := ih opened hrest
      simp only [openSocketsFrom]
      refine ⟨ih'.1, ?_, ?_⟩
      · intro addr fd hm hd
        have hm' : Event.dialTCP addr ∈ rest := by simpa using hm
        exact ih'.2.1 addr fd hm' hd
      · intro addr fd hm hd
        have hm' : Event.dialUDP addr ∈ rest := by simpa using hm
        exact ih'.2.2 addr fd hm' hd

/-- Every call of the switch is a call of the `Connect` run. -/
theorem dialTransport_trace_sub (w : Net) (address : String) (config : Config) :
    ∀ e ∈ (dialTransport w address config).trace, e ∈ (Connect w address config).trace := by
  intro e he
  rcases dialTransport_cases w address config with
    ⟨tr, msg, hd⟩ | ⟨tr, err, hd⟩ | ⟨tr, conn, hd⟩
  · rw [Connect_of_fault hd]; rw [hd] at he; exact he
  · rw [Connect_of_error hd]; rw [hd] at he; exact he
  · rw [Connect_of_conn hd]; rw [hd] at he
    exact List.mem_append_left _ he

/-- The connection the switch leaves sits on a socket that a dial of the switch
returned. -/
theorem dialTransport_conn_dialled (w : Net) (address : String) (config : Config)
    (tr : List Event) (conn : NetConn)
    (hd : dialTransport w address config = ⟨tr, .ret (.ok conn)⟩) :
    (∃ addr, Event.dialTCP addr ∈ tr ∧ w.DialTCP addr = .ok conn.fd) ∨
    (∃ addr, Event.dialUDP addr ∈ tr ∧ w.DialUDP addr = .ok conn.fd) := by
  by_cases h1 : config.Transport = "tcp"
  · rcases dialTransport_tcp w address config h1 with
      ⟨_, _, hx⟩ | ⟨_, _, _, _, hx⟩ | ⟨addr, fd, _, hdl, hx⟩
    · rw [hx] at hd; simp at hd
    · rw [hx] at hd; simp at hd
    · rw [hx] at hd
      simp only [Run.mk.injEq, Outcome.ret.injEq, Except.ok.injEq] at hd
      rw [← hd.1, ← hd.2]
      exact Or.inl ⟨addr, by simp, hdl⟩
  · by_cases h2 : config.Transport = "tls"
    · rcases dialTransport_tls w address config h2 with
        ⟨_, _, hx⟩ | ⟨_, _, _, _, hx⟩ | ⟨_, _, _, _, _, hx⟩ | ⟨addr, fd, t, _, hdl, _, hx⟩
      · rw [hx] at hd; simp at hd
      · rw [hx] at hd; simp at hd
      · rw [hx] at hd; simp at hd
      · rw [hx] at hd
        simp only [Run.mk.injEq] at hd
        rcases tlsClient_cases w fd t with
          ⟨_, _, _, hc⟩ | ⟨_, _, _, hc⟩ | ⟨_, _, _, _, hc⟩ | ⟨_, _, _, hc⟩
        · rw [hc] at hd; simp at hd
        · rw [hc] at hd; simp at hd
        · rw [hc] at hd; simp at hd
        · rw [hc] at hd
          simp only [Outcome.ret.injEq, Except.ok.injEq] at hd
          rw [← hd.1, ← hd.2]
          exact Or.inl ⟨addr, by simp, hdl⟩
    · rcases dialTransport_default w address config h1 h2 with
        ⟨_, _, hx⟩ | ⟨_, _, _, _, hx⟩ | ⟨addr, fd, _, hdl, hx⟩
      · rw [hx] at hd; simp at hd
      · rw [hx] at hd; simp at hd
      · rw [hx] at hd
        simp only [Run.mk.injEq, Outcome.ret.injEq, Except.ok.injEq] at hd
        rw [← hd.1, ← hd.2]
        exact Or.inr ⟨addr, by simp, hdl⟩

/-- The TLS part when the key pair does not load. -/
theorem tlsClient_of_keypair_error (w : Net) (fd : Socket) (t : TLSConfig) (err : Error)
    (h1 : t.ClientCert ≠ "") (h2 : t.ClientKey ≠ "")
    (hk : w.X509KeyPair t.ClientCert t.ClientKey = .error err) :
    tlsClient w fd t = ⟨[.x509KeyPair t.ClientCert t.ClientKey],
      .ret (.error (.wrapf "failed to load client cert/key: %w" err))⟩ := by
  have hno : ¬ certLoads w t := by
    intro hcl
    rcases hcl ⟨h1, h2⟩ with ⟨cert, hc⟩
    rw [hk] at hc
    exact Except.noConfusion hc
  rcases tlsClient_cases w fd t with
    ⟨err', _, hk', hc⟩ | ⟨hcl, _⟩ | ⟨_, hcl, _⟩ | ⟨hcl, _⟩
  · rw [hk] at hk'
    have : err = err' := by injection hk'
    subst this
    exact hc
  · exact absurd hcl hno
  · exact absurd hcl hno
  · exact absurd hcl hno

/-- The TLS part when the key pair stage succeeds and no certificate is parsed
from a non-empty CA. -/
theorem tlsClient_of_ca_error (w : Net) (fd : Socket) (t : TLSConfig)
    (hcl : certLoads w t) (hca : t.CA ≠ "") (hp : w.ParseCertsFromPEM t.CA = []) :
    tlsClient w fd t = ⟨certCalls t ++ [.appendCertsFromPEM t.CA],
      .ret (.error (.errorf "failed to parse CA certificate"))⟩ := by
  have hnp : ¬ caParses w t := fun h => h hca hp
  rcases tlsClient_cases w fd t with
    ⟨err, hc, hk, _⟩ | ⟨_, _, _, hc⟩ | ⟨_, _, hcp, _⟩ | ⟨_, hcp, _⟩
  · rcases hcl hc with ⟨cert, hok⟩
    rw [hk] at hok
    exact Except.noConfusion hok
  · exact hc
  · exact absurd hcp hnp
  · exact absurd hcp hnp

/-- The TLS part when key pair and CA stages succeed and the handshake fails. -/
theorem tlsClient_of_handshake_error (w : Net) (fd : Socket) (t : TLSConfig) (err : Error)
    (hcl : certLoads w t) (hcp : caParses w t)
    (hh : w.Handshake fd (referenceTlsConfig w t) = some err) :
    tlsClient w fd t =
      ⟨certCalls t ++ caCalls t ++ [.handshake fd (referenceTlsConfig w t)],
        .ret (.error err)⟩ := by
  rcases tlsClient_cases w fd t with
    ⟨err', hc, hk, _⟩ | ⟨_, hca, hp, _⟩ | ⟨err', _, _, hh', hc⟩ | ⟨_, _, hh', _⟩
  · rcases hcl hc with ⟨cert, hok⟩
    rw [hk] at hok
    exact Except.noConfusion hok
  · exact absurd hp (hcp hca)
  · rw [hh] at hh'
    have : err = err' := by injection hh'
    subst this
    exact hc
  · rw [hh] at hh'
    exact Option.noConfusion hh'

/-- C6, as amended: Connect makes no Close call on any path, so every socket a
dial of the run opened is still open when Connect returns.  In particular, when
a socket has been opened and a later stage then fails (for tls: client cert/key
load, CA parse or handshake after the TCP dial; for any transport: deadline
assignment after the dial stage), Connect returns that stage's error with no
handle, and the opened socket is still open when the error is returned. -/
theorem connect_never_closes (w : Net) (address : String) (config : Config) :
    (∀ e ∈ (Connect w address config).trace, e.isClose = false) ∧
    (∀ addr fd, Event.dialTCP addr ∈ (Connect w address config).trace →
      w.DialTCP addr = .ok fd → fd ∈ openSockets w (Connect w address config).trace) ∧
    (∀ addr fd, Event.dialUDP addr ∈ (Connect w address config).trace →
      w.DialUDP addr = .ok fd → fd ∈ openSockets w (Connect w address config).trace) ∧
    (∀ t addr fd, config.Transport = "tls" → config.TLS = some t →
      w.ResolveTCPAddr address = .ok addr → w.DialTCP addr = .ok fd →
      (∀ err, t.ClientCert ≠ "" → t.ClientKey ≠ "" →
        w.X509KeyPair t.ClientCert t.ClientKey = .error err →
        (Connect w address config).out =
          .ret (none, some (.wrapf "failed to load client cert/key: %w" err)) ∧
        fd ∈ openSockets w (Connect w address config).trace) ∧
      (certLoads w t → t.CA ≠ "" → w.ParseCertsFromPEM t.CA = [] →
        (Connect w address config).out =
          .ret (none, some (.errorf "failed to parse CA certificate")) ∧
        fd ∈ openSockets w (Connect w address config).trace) ∧
      (∀ err, certLoads w t → caParses w t →
        w.Handshake fd (referenceTlsConfig w t) = some err →
        (Connect w address config).out = .ret (none, some err) ∧
        fd ∈ openSockets w (Connect w address config).trace)) ∧
    (∀ tr conn err, dialTransport w address config = ⟨tr, .ret (.ok conn)⟩ →
      0 < config.Timeout →
      w.SetDeadline conn (deadlineAt w config.Timeout) = some err →
      (Connect w address config).out = .ret (none, some err) ∧
      conn.fd ∈ openSockets w (Connect w address config).trace) := by
  have hnc : ∀ e ∈ (Connect w address config).trace, e.isClose = false := by
    intro e he
    rcases Connect_trace_mem w address config e he with h | h
    · exact (dialTransport_trace_calls w address config e h).2
    · cases e <;> simp [Event.isSetDeadline] at h
      rfl
  have hopen := openSocketsFrom_of_no_close w (Connect w address config).trace [] hnc
  have htcp : ∀ addr fd, Event.dialTCP addr ∈ (Connect w address config).trace →
      w.DialTCP addr = .ok fd → fd ∈ openSockets w (Connect w address config).trace :=
    hopen.2.1
  have hudp : ∀ addr fd, Event.dialUDP addr ∈ (Connect w address config).trace →
      w.DialUDP addr = .ok fd → fd ∈ openSockets w (Connect w address config).trace :=
    hopen.2.2
  refine ⟨hnc, htcp, hudp, ?_, ?_⟩
  · intro t addr fd ht hT hr hdl
    have hd := dialTransport_tls_dialled w address config t addr fd ht hT hr hdl
    have hmem : fd ∈ openSockets w (Connect w address config).trace := by
      apply htcp addr fd _ hdl
      apply dialTransport_trace_sub
      rw [hd]
      simp
    refine ⟨?_, ?_, ?_⟩
    · intro err h1 h2 hk
      rw [tlsClient_of_keypair_error w fd t err h1 h2 hk] at hd
      exact ⟨by rw [Connect_of_error hd], hmem⟩
    · intro hcl hca hp
      rw [tlsClient_of_ca_error w fd t hcl hca hp] at hd
      exact ⟨by rw [Connect_of_error hd], hmem⟩
    · intro err hcl hcp hh
      rw [tlsClient_of_handshake_error w fd t err hcl hcp hh] at hd
      exact ⟨by rw [Connect_of_error hd], hmem⟩
  · intro tr conn err hd hpos hsd
    constructor
    · rw [Connect_of_conn hd]
      simp only [finish, if_pos hpos, hsd]
    · rcases dialTransport_conn_dialled w address config tr conn hd with
        ⟨addr, hm, hdl⟩ | ⟨addr, hm, hdl⟩
      · apply htcp addr conn.fd _ hdl
        apply dialTransport_trace_sub
        rw [hd]; exact hm
      · apply hudp addr conn.fd _ hdl
        apply dialTransport_trace_sub
        rw [hd]; exact hm

/-- C6 as amended, at a concrete input: a key pair that does not load stops a
"tls" connect after the TCP dial with the TLS-setup error and no handle, and
socket 3 is still open. -/
theorem connect_never_closes_witness :
    (Connect keyPairFailNet "h:6514" ⟨"tls", 0, some ⟨"", "CERT", "KEY", "", false⟩⟩).out =
      .ret (none, some (.wrapf "failed to load client cert/key: %w"
        (.lib "tls: failed to find any PEM data in certificate input"))) ∧
    3 ∈ openSockets keyPairFailNet
      (Connect keyPairFailNet "h:6514" ⟨"tls", 0, some ⟨"", "CERT", "KEY", "", false⟩⟩).trace :=
  ((connect_never_closes keyPairFailNet "h:6514"
    ⟨"tls", 0, some ⟨"", "CERT", "KEY", "", false⟩⟩).2.2.2.1
    ⟨"", "CERT", "KEY", "", false⟩ "h:6514" 3 rfl rfl rfl rfl).1
    (.lib "tls: failed to find any PEM data in certificate input") (by decide) (by decide) rfl

/-- C6 fails as stated: when the TLS handshake fails after the TCP dial, Connect
returns the handshake error having made no Close call, and the dialled socket 3
is still open; a Close of the connection at that point would have released it. -/
theorem connect_handshake_failure_leaves_socket_open :
    Connect handshakeFailNet "h:6514" ⟨"tls", 0, some ⟨"", "", "", "log.example", false⟩⟩ =
      ⟨[.resolveTCPAddr "h:6514", .dialTCP "h:6514",
          .handshake 3 ⟨false, "log.example", [], none⟩],
        .ret (none, some (.lib
          "tls: failed to verify certificate: x509: certificate signed by unknown authority"))⟩ ∧
    openSockets handshakeFailNet
      (Connect handshakeFailNet "h:6514"
        ⟨"tls", 0, some ⟨"", "", "", "log.example", false⟩⟩).trace = [3] ∧
    openSockets handshakeFailNet
      ((Connect handshakeFailNet "h:6514"
        ⟨"tls", 0, some ⟨"", "", "", "log.example", false⟩⟩).trace ++
          [.close (.tcpConn 3)]) = [] := by
  decide

/-- C9: Send performs exactly one Write call on the underlying connection, with
exactly `data` as its argument, and returns the error of that call.  With a
Write that keeps the `io.Writer` rule, Send returns an error whenever the write
fails or is short (Write reports an error, or reports fewer than `len(data)`
bytes written), and returns success only when all bytes were written. -/
theorem send_one_write_surfaces_failure (w : Net) (c : Connection) (data : Bytes)
    (hw : writerContract w) :
    (c.Send w data).trace = [.write c.conn data] ∧
    (c.Send w data).out = .ret (w.Write c.conn data).2 ∧
    ((w.Write c.conn data).2 ≠ none ∨ (w.Write c.conn data).1 < data.length →
      ∃ err, (c.Send w data).out = .ret (some err)) ∧
    ((c.Send w data).out = .ret none →
      (w.Write c.conn data).2 = none ∧ (w.Write c.conn data).1 = data.length) := by
  have hrule := hw c.conn data
  refine ⟨rfl, rfl, ?_, ?_⟩
  · intro hfail
    have hne : (w.Write c.conn data).2 ≠ none := by
      rcases hfail with h | h
      · exact h
      · exact hrule.2 h
    rcases hsome : (w.Write c.conn data).2 with _ | err
    · exact absurd hsome hne
    · exact ⟨err, by simp [Connection.Send, hsome]⟩
  · intro hs
    have hnone : (w.Write c.conn data).2 = none := by
      simpa [Connection.Send] using hs
    refine ⟨hnone, ?_⟩
    have hge : ¬ (w.Write c.conn data).1 < data.length := fun hlt => hrule.2 hlt hnone
    have hle := hrule.1
    omega

/-- C9 at a concrete input: a Write that fails having written nothing makes
Send return that error after the one Write call. -/
theorem send_one_write_surfaces_failure_witness :
    writerContract writeFailNet ∧
    (Connection.Send writeFailNet ⟨.tcpConn 3, "tcp"⟩ [60, 49, 62]).trace =
      [.write (.tcpConn 3) [60, 49, 62]] ∧
    ∃ err, (Connection.Send writeFailNet ⟨.tcpConn 3, "tcp"⟩ [60, 49, 62]).out =
      .ret (some err) :=
  have hw : writerContract writeFailNet :=
    fun _ _ => ⟨Nat.zero_le _, fun _ h => Option.noConfusion h⟩
  have h := send_one_write_surfaces_failure writeFailNet ⟨.tcpConn 3, "tcp"⟩ [60, 49, 62] hw
  ⟨hw, h.1, h.2.2.1 (Or.inl (by decide))⟩

/-- The key pair call, when made, does not fail if the key pair stage succeeds. -/
theorem certCalls_succeed (w : Net) (t : TLSConfig) (hcl : certLoads w t) :
    ∀ e ∈ certCalls t, e.fails w = false := by
  intro e he
  unfold certCalls at he
  split at he
  · rename_i hc
    simp only [List.mem_singleton] at he
    subst he
    rcases hcl hc with ⟨cert, hk⟩
    simp [Event.fails, hk]
  · simp at he

/-- The CA call, when made, does not fail if the CA stage succeeds. -/
theorem caCalls_succeed (w : Net) (t : TLSConfig) (hcp : caParses w t) :
    ∀ e ∈ caCalls t, e.fails w = false := by
  intro e he
  unfold caCalls at he
  split at he
  · rename_i hc
    simp only [List.mem_singleton] at he
    subst he
    simpa [Event.fails] using hcp hc
  · simp at he

/-- The TLS part either leaves a connection after calls that all succeeded, or
returns the error of a failed call, which is the last call it made. -/
theorem tlsClient_all_or_nothing (w : Net) (fd : Socket) (t : TLSConfig) :
    (∃ conn, (tlsClient w fd t).out = .ret (.ok conn) ∧
      ∀ e ∈ (tlsClient w fd t).trace, e.fails w = false) ∨
    (∃ err pre last, (tlsClient w fd t).out = .ret (.error err) ∧
      (tlsClient w fd t).trace = pre ++ [last] ∧ last.fails w = true ∧
      ∀ e ∈ pre, e.fails w = false) := by
  rcases tlsClient_cases w fd t with
    ⟨err, _, hk, hc⟩ | ⟨hcl, _, hp, hc⟩ | ⟨err, hcl, hcp, hh, hc⟩ | ⟨hcl, hcp, hh, hc⟩
  · right
    refine ⟨_, [], .x509KeyPair t.ClientCert t.ClientKey, by rw [hc], by rw [hc]; rfl, ?_, ?_⟩
    · simp [Event.fails, hk]
    · simp
  · right
    refine ⟨_, certCalls t, .appendCertsFromPEM t.CA, by rw [hc], by rw [hc], ?_,
      certCalls_succeed w t hcl⟩
    simp [Event.fails, hp]
  · right
    refine ⟨err, certCalls t ++ caCalls t, .handshake fd (referenceTlsConfig w t),
      by rw [hc], by rw [hc], ?_, ?_⟩
    · simp [Event.fails, hh]
    · intro e he
      rcases List.mem_append.1 he with he | he
      · exact certCalls_succeed w t hcl e he
      · exact caCalls_succeed w t hcp e he
  · left
    refine ⟨_, by rw [hc], ?_⟩
    rw [hc]
    intro e he
    simp only [List.mem_append, List.mem_singleton] at he
    rcases he with (he | he) | he
    · exact certCalls_succeed w t hcl e he
    · exact caCalls_succeed w t hcp e he
    · subst he; simp [Event.fails, hh]

/-- The switch, when `config.TLS` is present for "tls", either leaves a
connection after calls that all succeeded, or returns the error of a failed
call, which is the last call it made. -/
theorem dialTransport_all_or_nothing (w : Net) (address : String) (config : Config)
    (hp : config.Transport = "tls" → config.TLS ≠ none) :
    (∃ conn, (dialTransport w address config).out = .ret (.ok conn) ∧
      ∀ e ∈ (dialTransport w address config).trace, e.fails w = false) ∨
    (∃ err pre last, (dialTransport w address config).out = .ret (.error err) ∧
      (dialTransport w address config).trace = pre ++ [last] ∧ last.fails w = true ∧
      ∀ e ∈ pre, e.fails w = false) := by
  by_cases h1 : config.Transport = "tcp"
  · rcases dialTransport_tcp w address config h1 with
      ⟨err, hr, h⟩ | ⟨addr, err, hr, hdl, h⟩ | ⟨addr, fd, hr, hdl, h⟩
    · right
      refine ⟨err, [], .resolveTCPAddr address, by rw [h], by rw [h]; rfl, ?_, by simp⟩
      simp [Event.fails, hr]
    · right
      refine ⟨err, [.resolveTCPAddr address], .dialTCP addr, by rw [h], by rw [h]; rfl, ?_, ?_⟩
      · simp [Event.fails, hdl]
      · simp [Event.fails, hr]
    · left
      refine ⟨_, by rw [h], ?_⟩
      rw [h]
      simp [Event.fails, hr, hdl]
  · by_cases h2 : config.Transport = "tls"
    · rcases dialTransport_tls w address config h2 with
        ⟨err, hr, h⟩ | ⟨addr, err, hr, hdl, h⟩ | ⟨_, _, _, _, hN, _⟩ | ⟨addr, fd, t, hr, hdl, _, h⟩
      · right
        refine ⟨err, [], .resolveTCPAddr address, by rw [h], by rw [h]; rfl, ?_, by simp⟩
        simp [Event.fails, hr]
      · right
        refine ⟨err, [.resolveTCPAddr address], .dialTCP addr, by rw [h], by rw [h]; rfl, ?_, ?_⟩
        · simp [Event.fails, hdl]
        · simp [Event.fails, hr]
      · exact absurd hN (hp h2)
      · rw [h]
        rcases tlsClient_all_or_nothing w fd t with ⟨conn, ho, hall⟩ | ⟨err, pre, last, ho, htr, hl, hall⟩
        · left
          refine ⟨conn, ho, ?_⟩
          intro e he
          simp only [List.mem_append, List.mem_cons, List.mem_singleton, List.not_mem_nil,
            or_false] at he
          rcases he with (he | he) | he
          · subst he; simp [Event.fails, hr]
          · subst he; simp [Event.fails, hdl]
          · exact hall e he
        · right
          refine ⟨err, [.resolveTCPAddr address, .dialTCP addr] ++ pre, last, ho, ?_, hl, ?_⟩
          · simp only [htr, List.append_assoc]
          · intro e he
            simp only [List.mem_append, List.mem_cons, List.mem_singleton, List.not_mem_nil,
              or_false] at he
            rcases he with (he | he) | he
            · subst he; simp [Event.fails, hr]
            · subst he; simp [Event.fails, hdl]
            · exact hall e he
    · rcases dialTransport_default w address config h1 h2 with
        ⟨err, hr, h⟩ | ⟨addr, err, hr, hdl, h⟩ | ⟨addr, fd, hr, hdl, h⟩
      · right
        refine ⟨err, [], .resolveUDPAddr address, by rw [h], by rw [h]; rfl, ?_, by simp⟩
        simp [Event.fails, hr]
      · right
        refine ⟨err, [.resolveUDPAddr address], .dialUDP addr, by rw [h], by rw [h]; rfl, ?_, ?_⟩
        · simp [Event.fails, hdl]
        · simp [Event.fails, hr]
      · left
        refine ⟨_, by rw [h], ?_⟩
        rw [h]
        simp [Event.fails, hr, hdl]

/-- When `config.TLS` is present for "tls", Connect is all-or-nothing: it
returns a handle and no error after calls that all succeeded, or it returns no
handle and the error of a failed call, which is the last call it made. -/
theorem connect_all_or_nothing_of_tls_present (w : Net) (address : String) (config : Config)
    (hp : config.Transport = "tls" → config.TLS ≠ none) :
    (∃ h, (Connect w address config).out = .ret (some h, none) ∧
      ∀ e ∈ (Connect w address config).trace, e.fails w = false) ∨
    (∃ err pre last, (Connect w address config).out = .ret (none, some err) ∧
      (Connect w address config).trace = pre ++ [last] ∧ last.fails w = true ∧
      ∀ e ∈ pre, e.fails w = false) := by
  rcases dialTransport_all_or_nothing w address config hp with
    ⟨conn, ho, hall⟩ | ⟨err, pre, last, ho, htr, hl, hall⟩
  · rcases hdt : dialTransport w address config with ⟨tr, out⟩
    rw [hdt] at ho hall
    simp only at ho hall
    subst ho
    rw [Connect_of_conn hdt]
    simp only
    unfold finish
    split
    · split
      · rename_i err hsd
        right
        refine ⟨err, tr, .setDeadline conn (deadlineAt w config.Timeout), rfl, rfl, ?_, hall⟩
        simp [Event.fails, hsd]
      · rename_i hsd
        left
        refine ⟨_, rfl, ?_⟩
        intro e he
        simp only [List.mem_append, List.mem_singleton] at he
        rcases he with he | he
        · exact hall e he
        · subst he; simp [Event.fails, hsd]
    · left
      refine ⟨_, rfl, ?_⟩
      intro e he
      simp only [List.append_nil] at he
      exact hall e he
  · rcases hdt : dialTransport w address config with ⟨tr, out⟩
    rw [hdt] at ho htr
    simp only at ho htr
    subst ho
    rw [Connect_of_error hdt]
    right
    exact ⟨err, pre, last, rfl, htr, hl, hall⟩

end Syslog
